import Mathlib

/-!
# terraform-provider-graphql: query executor and mutation resource

A shallow embedding of `graphql/query_executor.go` and
`graphql/resource_graphql_mutation.go`.

* Go maps with string keys are association lists with unique keys (`AList`); a
  `for k, v := range m` loop is a fold over the entries.  The results proved below are
  stated through `lookup`, so they do not depend on the iteration order.
* The Go standard library (the JSON codec, `http.NewRequestWithContext`) and the package
  functions `hash` and `computeMutationVariableKeys`, which live in other files, are
  parameters collected in `Env`; the HTTP exchange is a function giving the result of
  `client.Do` on every attempt.  The envelope type and its method `ProcessErrors`, also
  declared in another file, follow the specification.
* A Go panic is an explicit result (`Exec.panic`).
* `queryExecute` reads the retry settings from the resource data with `d.Get`.  The schema
  of the mutation resource declares none of them, so the handlers pass data for which
  `d.Get` returns nil (`ResourceData.queryData`); the results about the retry loop are
  about data of a resource that declares them (`QueryData` with the three values present).
* The definitions come first, then concrete inputs, then the theorems.
-/

namespace Graphql

/-! ## Values -/

/-- A byte slice. -/
abbrev Bytes := List Nat

/-- A dynamically typed Go value (`interface{}`) of the shapes `encoding/json` produces.
A `float64` is represented by its IEEE-754 bit pattern. -/
inductive GoValue where
  | null
  | bool (b : Bool)
  | float64 (bits : Nat)
  | str (s : String)
  | array (xs : List GoValue)
  | object (kvs : List (String × GoValue))

/-- A Go `map[string]V`. -/
abbrev GoMap (V : Type) := AList (fun _ : String => V)

/-- A Go `error` value: one produced by a library call, or the wrapped parse error built at
`query_executor.go:112` with `fmt.Errorf`, which carries the cause and the raw body. -/
inductive GoError where
  | lib (msg : String)
  | parseResponse (cause : GoError) (body : Bytes)
  deriving DecidableEq

/-- The result of running Go code that may panic. -/
inductive Exec (α : Type) where
  | ret (a : α)
  | panic (reason : String)

/-- The request object `GqlQuery` populated at `query_executor.go:31-47`. -/
structure GqlQuery where
  Query : String
  Variables : GoMap GoValue

/-- Modelled from the spec: one entry of the envelope's `errors` list (the type is declared
in a file of the package that is not part of the sources at hand). -/
structure GqlError where
  message : String
  deriving DecidableEq

/-- Modelled from the spec: the parsed envelope `GqlQueryResponse`, "a JSON object containing
a `data` payload and an optional `errors` list" (declared in a file of the package that is
not part of the sources at hand). -/
structure GqlQueryResponse where
  data : GoValue
  errors : List GqlError

/-- An `*http.Response` as far as `queryExecute` looks at it: the status code and what
`io.ReadAll(resp.Body)` yields. -/
structure HttpResponse where
  statusCode : Int
  body : Except GoError Bytes

/-- What `client.Do(req)` returns on one attempt, together with the number of bytes the
transport read from the request body while sending.  `failure` is a non-nil transport
error; its response is nil except when a redirect check fails. -/
inductive DoResult where
  | response (resp : HttpResponse) (consumed : Nat)
  | failure (err : GoError) (resp : Option HttpResponse) (consumed : Nat)

/-- The library functions and the package functions declared outside the two files. -/
structure Env where
  /-- The call `json.Unmarshal([]byte(s), &js)` with `js` an `interface{}`; `none` is an error. -/
  jsonUnmarshal : String → Option GoValue
  /-- The call `json.NewEncoder(&buf).Encode(queryObj)`: the bytes written, or an error. -/
  jsonEncode : GqlQuery → Except GoError Bytes
  /-- The error of `http.NewRequestWithContext(ctx, "POST", apiURL, body)`, if any. -/
  newRequestErr : Option GoError
  /-- The call `json.Unmarshal(body, &gqlResponse)`. -/
  unmarshalResponse : Bytes → Except GoError GqlQueryResponse
  /-- The text `fmt.Sprint(hash(b))`; `hash` is declared in another file of the package. -/
  hashSprint : Bytes → String
  /-- The call `json.Unmarshal(queryResponseBytes, &robj)` with `robj` a map. -/
  unmarshalObject : Bytes → Except GoError (GoMap GoValue)
  /-- The package function `computeMutationVariableKeys`, declared in another file. -/
  computeMutationVariableKeys : GoMap GoValue → GoMap GoValue → Except GoError (GoMap String)
  /-- The call `json.Marshal(v)`, its bytes read as a string. -/
  jsonMarshal : GoValue → Except GoError String

/-! ## `query_executor.go` -/

/-- Two's-complement wrap-around of an `int64`. -/
def wrapInt64 (x : Int) : Int := (x + 2 ^ 63) % 2 ^ 64 - 2 ^ 63

/-- The constant `time.Millisecond`, in nanoseconds. -/
def millisecond : Int := 1000000

/-- The function `exponentialBackoff` (`query_executor.go:18-20`); the result is a
`time.Duration`, a number of nanoseconds.  The `float64` product
`math.Pow(2, attempt) * float64(multiplier)` is rendered by the exact product and its
conversion to `int64` by wrap-around: this is the value Go computes whenever that product
is below `2^53` in absolute value, the range in which the results below are stated. -/
def exponentialBackoff (attempt : Nat) (multiplier : Int) : Int :=
  wrapInt64 (wrapInt64 (2 ^ attempt * multiplier) * millisecond)

/-- The function `contains` (`query_executor.go:118-125`). -/
def contains (set : List Int) (item : Int) : Bool :=
  match set with
  | [] => false
  | v :: rest => if v = item then true else contains rest item

/-- The function `isJSON` (`query_executor.go:128-135`): the pair `(js, true)` or
`(nil, false)`; the type assertion `s.(string)` panics on a value that is not a string. -/
def isJSON (env : Env) (s : GoValue) : Exec (GoValue × Bool) :=
  match s with
  | .str text =>
    match env.jsonUnmarshal text with
    | none => .ret (.null, false)
    | some js => .ret (js, true)
  | _ => .panic "interface conversion: interface {} is not string"

/-- The loop "Populate GqlQuery variables" (`query_executor.go:37-47`), run over the
entries of `inputVariables` and writing into `queryObj.Variables`. -/
def populateVariables (env : Env) :
    List (Sigma fun _ : String => GoValue) → GoMap GoValue → Exec (GoMap GoValue)
  | [], vars => .ret vars
  | ⟨k, v⟩ :: rest, vars =>
    match isJSON env v with
    | .panic reason => .panic reason
    | .ret (js, isJS) =>
      if isJS then populateVariables env rest (vars.insert k js)
      else populateVariables env rest (vars.insert k v)

/-- The request object built at `query_executor.go:31-47`. -/
def buildQueryObj (env : Env) (query : String) (inputVariables : GoMap GoValue) :
    Exec GqlQuery :=
  match populateVariables env inputVariables.entries ∅ with
  | .panic reason => .panic reason
  | .ret vars => .ret { Query := query, Variables := vars }

/-- What the retry loop does that is visible from outside: a request sent on an attempt,
with the body it carries, and a call of `time.Sleep`. -/
inductive Event where
  | request (attempt : Nat) (body : Bytes)
  | sleep (d : Int)
  deriving DecidableEq

/-- The variables of `queryExecute` that live across iterations of the retry loop.
`err` is the variable declared at line 65.  `queryBodyBuffer` is the unread part of the
`bytes.Buffer` declared at line 29. -/
structure LoopState where
  resp : Option HttpResponse
  err : Option GoError
  queryBodyBuffer : Bytes
  trace : List Event

/-- How the retry loop ends: by the `return` at line 71, or by leaving the loop. -/
inductive LoopResult where
  | returned (err : GoError) (trace : List Event)
  | exited (st : LoopState)

/-- The events of a loop result. -/
def LoopResult.events : LoopResult → List Event
  | .returned _ trace => trace
  | .exited st => st.trace

/-- The `time.Sleep` of lines 93-97, appended to the trace when `attempt < maxRetries`. -/
def backoffStep (maxRetries retryWaitMs : Int) (attempt : Nat) (trace : List Event) :
    List Event :=
  if (attempt : Int) < maxRetries then
    trace ++ [Event.sleep (exponentialBackoff attempt retryWaitMs)]
  else trace

/-- The retry loop of `queryExecute` (`query_executor.go:68-98`), from iteration `attempt`
on; `fuel` bounds the number of iterations the model runs.

* Line 69 declares a new `err` with `:=` inside the loop body, and line 88 assigns the
  result of `client.Do` to that inner variable and to the outer `resp`: the outer `err`
  of `LoopState` is never assigned.
* `http.NewRequestWithContext` is given the same `*bytes.Buffer` on every attempt: the
  request carries the bytes that are still unread, and sending reads them off the buffer.
* Headers and the debug transport do not influence the control flow and are left out. -/
def retryLoop (env : Env) (net : Nat → DoResult) (maxRetries retryWaitMs : Int)
    (retryableStatusCodes : List Int) : Nat → Nat → LoopState → LoopResult
  | 0, _, st => .exited st
  | fuel + 1, attempt, st =>
    if (attempt : Int) ≤ maxRetries then
      match env.newRequestErr with
      | some err => .returned err st.trace
      | none =>
        let sent := st.trace ++ [Event.request attempt st.queryBodyBuffer]
        match net attempt with
        | .response resp consumed =>
          if !contains retryableStatusCodes resp.statusCode then
            .exited { st with resp := some resp,
                              queryBodyBuffer := st.queryBodyBuffer.drop consumed,
                              trace := sent }
          else
            retryLoop env net maxRetries retryWaitMs retryableStatusCodes fuel (attempt + 1)
              { st with resp := some resp,
                        queryBodyBuffer := st.queryBodyBuffer.drop consumed,
                        trace := backoffStep maxRetries retryWaitMs attempt sent }
        | .failure _ resp consumed =>
          retryLoop env net maxRetries retryWaitMs retryableStatusCodes fuel (attempt + 1)
            { st with resp := resp,
                      queryBodyBuffer := st.queryBodyBuffer.drop consumed,
                      trace := backoffStep maxRetries retryWaitMs attempt sent }
    else .exited st

/-- The default of `query_executor.go:56-63`: 429, 503, 504, 500 when none is configured. -/
def effectiveStatusCodes (configured : List Int) : List Int :=
  if configured.length = 0 then [429, 503, 504, 500] else configured

/-- The attempts on which a request was sent, in order. -/
def attemptsOf : List Event → List Nat
  | [] => []
  | .request attempt _ :: rest => attempt :: attemptsOf rest
  | .sleep _ :: rest => attemptsOf rest

/-- The durations slept, in order. -/
def sleepsOf : List Event → List Int
  | [] => []
  | .request _ _ :: rest => sleepsOf rest
  | .sleep d :: rest => d :: sleepsOf rest

/-- The request bodies sent, in order. -/
def bodiesOf : List Event → List Bytes
  | [] => []
  | .request _ body :: rest => body :: bodiesOf rest
  | .sleep _ :: rest => bodiesOf rest

/-- An attempt ends the retries: the transport error is nil and the status code is not
among the retryable ones. -/
def stopsRetry (retryableStatusCodes : List Int) : DoResult → Bool
  | .response resp _ => !contains retryableStatusCodes resp.statusCode
  | .failure _ _ _ => false

/-- The keys `queryExecute` is given as `querySource`. -/
inductive QuerySource where
  | read_query
  | create_mutation
  | delete_mutation
  | update_mutation
  deriving DecidableEq

/-- The keys `queryExecute` is given as `variableSource`. -/
inductive VariableSource where
  | mutation_variables
  | computed_read_operation_variables
  | computed_update_operation_variables
  | computed_delete_operation_variables
  deriving DecidableEq

/-- The `*schema.ResourceData` of the mutation resource: the fields its schema declares
(`resource_graphql_mutation.go:15-96`) and the resource ID.  `d.Get` reads a field, `d.Set`
and `d.SetId` replace one; the values written here have the type of their field, so `d.Set`
returns no error.  The schema declares no `max_retries`, `retry_delay` or
`retry_status_codes`. -/
structure ResourceData where
  read_query : String
  create_mutation : String
  delete_mutation : String
  update_mutation : String
  mutation_variables : GoMap GoValue
  read_query_variables : GoMap GoValue
  delete_mutation_variables : GoMap GoValue
  compute_mutation_keys : GoMap GoValue
  compute_from_create : Bool
  computed_read_operation_variables : GoMap GoValue
  computed_update_operation_variables : GoMap GoValue
  computed_delete_operation_variables : GoMap GoValue
  query_response : Bytes
  existing_hash : String
  id : String

/-- A `*schema.ResourceData` as `queryExecute` reads it: the fields above, and what `d.Get`
returns for the three retry keys of lines 53-55.  For a key the schema of the resource
declares, that is its value; for a key the schema does not declare, `d.Get` returns nil,
here `none`. -/
structure QueryData extends ResourceData where
  max_retries : Option Int
  retry_delay : Option Int
  retry_status_codes : Option (List Int)

/-- What `queryExecute` finds when a handler of the mutation resource passes its `d`: the
schema at `resource_graphql_mutation.go:15-96` declares none of the three retry keys, so
`d.Get` returns nil for each of them. -/
def ResourceData.queryData (d : ResourceData) : QueryData :=
  { toResourceData := d, max_retries := none, retry_delay := none,
    retry_status_codes := none }

/-- The read `d.Get(querySource).(string)`. -/
def ResourceData.getQuery (d : ResourceData) : QuerySource → String
  | .read_query => d.read_query
  | .create_mutation => d.create_mutation
  | .delete_mutation => d.delete_mutation
  | .update_mutation => d.update_mutation

/-- The read `d.Get(variableSource).(map[string]interface{})`. -/
def ResourceData.getVariables (d : ResourceData) : VariableSource → GoMap GoValue
  | .mutation_variables => d.mutation_variables
  | .computed_read_operation_variables => d.computed_read_operation_variables
  | .computed_update_operation_variables => d.computed_update_operation_variables
  | .computed_delete_operation_variables => d.computed_delete_operation_variables

/-- Lines 100-115 of `queryExecute`, after the retry loop: the test of the outer `err`,
the deferred `resp.Body.Close()` (a nil dereference when `resp` is nil), reading the body
and parsing the envelope. -/
def readResponse (env : Env) (st : LoopState) :
    Exec (Except GoError (GqlQueryResponse × Bytes)) :=
  match st.err with
  | some err => .ret (.error err)
  | none =>
    match st.resp with
    | none => .panic "invalid memory address or nil pointer dereference"
    | some resp =>
      match resp.body with
      | .error err => .ret (.error err)
      | .ok body =>
        match env.unmarshalResponse body with
        | .error err => .ret (.error (.parseResponse err body))
        | .ok gqlResponse => .ret (.ok (gqlResponse, body))

/-- One run of `queryExecute`: the variable map it read, the request object it built (if it
got that far), the requests and sleeps of the retry loop, and what it returned:
`.ok (gqlResponse, body)` for `(&gqlResponse, body, nil)`, `.error err` for
`(nil, nil, err)`. -/
structure QueryRun where
  inputVariables : GoMap GoValue
  queryObj : Option GqlQuery
  events : List Event
  result : Exec (Except GoError (GqlQueryResponse × Bytes))

/-- The function `queryExecute` (`query_executor.go:22-116`).  `net attempt` is what
`client.Do` returns on that attempt.  The type assertions of lines 53-55 panic on the nil
that `d.Get` returns for a key the schema does not declare.  The loop runs
`attempt = 0, 1, ...` while `attempt <= maxRetries`, which takes at most `maxRetries + 1`
iterations of fuel (see `retryLoop_fuel`). -/
def queryExecute (env : Env) (net : Nat → DoResult) (d : QueryData)
    (querySource : QuerySource) (variableSource : VariableSource) : QueryRun :=
  let query := d.getQuery querySource
  let inputVariables := d.getVariables variableSource
  match buildQueryObj env query inputVariables with
  | .panic reason => ⟨inputVariables, none, [], .panic reason⟩
  | .ret queryObj =>
    match env.jsonEncode queryObj with
    | .error err => ⟨inputVariables, some queryObj, [], .ret (.error err)⟩
    | .ok encoded =>
      match d.max_retries with
      | none =>
        ⟨inputVariables, some queryObj, [],
          .panic "interface conversion: interface {} is nil, not int"⟩
      | some maxRetries =>
        match d.retry_delay with
        | none =>
          ⟨inputVariables, some queryObj, [],
            .panic "interface conversion: interface {} is nil, not int"⟩
        | some retryWaitMs =>
          match d.retry_status_codes with
          | none =>
            ⟨inputVariables, some queryObj, [],
              .panic "interface conversion: interface {} is nil, not *schema.Set"⟩
          | some configured =>
            let retryableStatusCodes := effectiveStatusCodes configured
            match retryLoop env net maxRetries retryWaitMs retryableStatusCodes
                (maxRetries + 1).toNat 0 ⟨none, none, encoded, []⟩ with
            | .returned err trace =>
              ⟨inputVariables, some queryObj, trace, .ret (.error err)⟩
            | .exited st => ⟨inputVariables, some queryObj, st.trace, readResponse env st⟩

/-! ## `resource_graphql_mutation.go` -/

/-- One entry of a `diag.Diagnostics`; every entry built here has severity `Error`. -/
inductive Diagnostic where
  | ofErr (err : GoError)
  | ofQueryError (e : GqlError)
  deriving DecidableEq

/-- The type `diag.Diagnostics`. -/
abbrev Diagnostics := List Diagnostic

/-- The function `diag.FromErr` on a non-nil error. -/
def FromErr (err : GoError) : Diagnostics := [.ofErr err]

/-- The method `HasError`: some entry has severity `Error`. -/
def HasError (diags : Diagnostics) : Bool := !diags.isEmpty

/-- Modelled from the spec: the method `ProcessErrors` of `GqlQueryResponse` (declared in a
file of the package that is not part of the sources at hand) surfaces the envelope's error
list "as a structured diagnostic collection, one entry per error". -/
def ProcessErrors (r : GqlQueryResponse) : Diagnostics := r.errors.map .ofQueryError

/-- The loop `for k, v := range overrides { target[k] = v }`. -/
def assignAll {V : Type} (overrides : List (Sigma fun _ : String => V)) (target : GoMap V) :
    GoMap V :=
  overrides.foldl (fun acc e => acc.insert e.1 e.2) target

/-- The body of the three copy loops of `computeMutationVariables`: a string is taken as it
is (`v.(string)`), any other value is serialised with `json.Marshal`. -/
def stringOf (env : Env) (v : GoValue) : Except GoError String :=
  match v with
  | .str s => .ok s
  | _ => env.jsonMarshal v

/-- The loop `for k, v := range source { target[k] = <string of v> }` of
`computeMutationVariables` (lines 227-238, 248-258 and 267-277); a `json.Marshal` error
ends it. -/
def copyAsStrings (env : Env) :
    List (Sigma fun _ : String => GoValue) → GoMap String → Except GoError (GoMap String)
  | [], target => .ok target
  | ⟨k, v⟩ :: rest, target =>
    match stringOf env v with
    | .error err => .error err
    | .ok s => copyAsStrings env rest (target.insert k s)

/-- A `map[string]string` stored with `d.Set` and read back with `d.Get` as a
`map[string]interface{}`: same keys, every value a string. -/
def asValues (m : GoMap String) : GoMap GoValue :=
  ⟨m.entries.map (fun e => ⟨e.1, GoValue.str e.2⟩), by
    have h := m.nodupKeys
    rw [List.nodupKeys_iff_pairwise] at h ⊢
    exact List.Pairwise.map _ (fun _ _ hab => hab) h⟩

/-- The function `computeMutationVariables` (`resource_graphql_mutation.go:208-284`): the
returned error, if any, and the resource data as left by the calls of `d.Set`. -/
def computeMutationVariables (env : Env) (queryResponseBytes : Bytes) (d : ResourceData) :
    Option GoError × ResourceData :=
  let dataKeys := d.compute_mutation_keys
  let mutationVariables := d.mutation_variables
  let readQueryVariables := d.read_query_variables
  let deleteMutationVariables := d.delete_mutation_variables
  match env.unmarshalObject queryResponseBytes with
  | .error err => (some err, d)
  | .ok robj =>
    match env.computeMutationVariableKeys dataKeys robj with
    | .error _ => (none, d)
    | .ok mvks =>
      match copyAsStrings env readQueryVariables.entries ∅ with
      | .error err => (some err, d)
      | .ok rvks0 =>
        let rvks := assignAll mvks.entries rvks0
        let d1 := { d with computed_read_operation_variables := asValues rvks }
        match copyAsStrings env deleteMutationVariables.entries ∅ with
        | .error err => (some err, d1)
        | .ok dvks0 =>
          let dvks := assignAll mvks.entries dvks0
          let d2 := { d1 with computed_delete_operation_variables := asValues dvks }
          match copyAsStrings env mutationVariables.entries mvks with
          | .error err => (some err, d2)
          | .ok mvks1 =>
            (none, { d2 with computed_update_operation_variables := asValues mvks1 })

/-- One run of a resource handler: the diagnostics returned (or a panic), the resource data
as the handler leaves it, and the runs of `queryExecute` it made, in order. -/
structure HandlerRun where
  diags : Exec Diagnostics
  d : ResourceData
  queries : List QueryRun

/-- The function `resourceGraphqlRead` (`resource_graphql_mutation.go:159-193`). -/
def resourceGraphqlRead (env : Env) (net : Nat → DoResult) (d : ResourceData) : HandlerRun :=
  let queryVariables := d.read_query_variables
  let computedVariables := assignAll queryVariables.entries d.computed_read_operation_variables
  let d1 := { d with computed_read_operation_variables := computedVariables }
  let q := queryExecute env net d1.queryData .read_query .computed_read_operation_variables
  match q.result with
  | .panic reason => ⟨.panic reason, d1, [q]⟩
  | .ret (.error err) => ⟨.ret (FromErr err), d1, [q]⟩
  | .ret (.ok (queryResponse, resBytes)) =>
    if HasError (ProcessErrors queryResponse) then
      ⟨.ret (ProcessErrors queryResponse), d1, [q]⟩
    else
      let d2 := { d1 with query_response := resBytes }
      if !d2.compute_from_create then
        match computeMutationVariables env resBytes d2 with
        | (some err, d3) => ⟨.ret (FromErr err), d3, [q]⟩
        | (none, d3) => ⟨.ret [], d3, [q]⟩
      else ⟨.ret [], d2, [q]⟩

/-- The function `resourceGraphqlMutationCreateUpdate`
(`resource_graphql_mutation.go:104-157`).  `net 0` serves the create or update mutation,
`net 1` the read that concludes the call. -/
def resourceGraphqlMutationCreateUpdate (env : Env) (net : Nat → Nat → DoResult)
    (d : ResourceData) : HandlerRun :=
  let mutationVariables := d.mutation_variables
  let mutationExistsHash := d.existing_hash
  if mutationExistsHash = "" then
    let q := queryExecute env (net 0) d.queryData .create_mutation .mutation_variables
    match q.result with
    | .panic reason => ⟨.panic reason, d, [q]⟩
    | .ret (.error err) => ⟨.ret (FromErr err), d, [q]⟩
    | .ret (.ok (queryResponse, resBytes)) =>
      if HasError (ProcessErrors queryResponse) then
        ⟨.ret (ProcessErrors queryResponse), d, [q]⟩
      else
        let d1 := { d with existing_hash := env.hashSprint resBytes }
        let computed :=
          if d1.compute_from_create then computeMutationVariables env resBytes d1
          else (none, d1)
        match computed with
        | (some err, d2) => ⟨.ret (FromErr err), d2, [q]⟩
        | (none, d2) =>
          let d3 := { d2 with id := env.hashSprint resBytes }
          let r := resourceGraphqlRead env (net 1) d3
          ⟨r.diags, r.d, q :: r.queries⟩
  else
    let computedVariables :=
      assignAll mutationVariables.entries d.computed_update_operation_variables
    let d1 := { d with computed_update_operation_variables := computedVariables }
    let q :=
      queryExecute env (net 0) d1.queryData .update_mutation
        .computed_update_operation_variables
    match q.result with
    | .panic reason => ⟨.panic reason, d1, [q]⟩
    | .ret (.error err) => ⟨.ret (FromErr err), d1, [q]⟩
    | .ret (.ok (queryResponse, resBytes)) =>
      if HasError (ProcessErrors queryResponse) then
        ⟨.ret (ProcessErrors queryResponse), d1, [q]⟩
      else
        let d3 := { d1 with id := env.hashSprint resBytes }
        let r := resourceGraphqlRead env (net 1) d3
        ⟨r.diags, r.d, q :: r.queries⟩

/-- The function `resourceGraphqlMutationDelete`
(`resource_graphql_mutation.go:195-206`). -/
def resourceGraphqlMutationDelete (env : Env) (net : Nat → DoResult) (d : ResourceData) :
    HandlerRun :=
  let q :=
    queryExecute env net d.queryData .delete_mutation .computed_delete_operation_variables
  match q.result with
  | .panic reason => ⟨.panic reason, d, [q]⟩
  | .ret (.error err) => ⟨.ret (FromErr err), d, [q]⟩
  | .ret (.ok (queryResponse, _)) =>
    if HasError (ProcessErrors queryResponse) then
      ⟨.ret (ProcessErrors queryResponse), d, [q]⟩
    else ⟨.ret [], d, [q]⟩

/-! ## Vocabulary for the statements -/

/-- The response `client.Do` hands back on an attempt (nil on most transport errors). -/
def DoResult.resp : DoResult → Option HttpResponse
  | .response resp _ => some resp
  | .failure _ resp _ => resp

/-- The number of body bytes the transport read on an attempt. -/
def DoResult.consumed : DoResult → Nat
  | .response _ consumed => consumed
  | .failure _ _ consumed => consumed

/-- The sleeps the loop makes after the failed attempts `a, a+1, ..., a+n-1`: one after
every attempt below `maxRetries`. -/
def scheduledSleeps (maxRetries retryWaitMs : Int) (a n : Nat) : List Int :=
  ((List.range' a n).filter (fun i : Nat => decide ((i : Int) < maxRetries))).map
    (fun i => exponentialBackoff i retryWaitMs)

/-- The status code of an attempt whose transport error is nil. -/
def DoResult.okStatus : DoResult → Option Int
  | .response resp _ => some resp.statusCode
  | .failure _ _ _ => none

/-- An event with the request body left out. -/
def Event.shape : Event → Event
  | .request attempt _ => .request attempt []
  | .sleep d => .sleep d

/-- What a failed attempt `a` leaves in the trace, bodies left out: its request, followed
by a sleep of `exponentialBackoff a retryWaitMs` exactly when `a < maxRetries`. -/
def failedAttemptShape (maxRetries retryWaitMs : Int) (a : Nat) : List Event :=
  Event.request a [] ::
    (if (a : Int) < maxRetries then [Event.sleep (exponentialBackoff a retryWaitMs)] else [])

/-- The value put into the outgoing `variables` for an input value: the decoded JSON value
when the input is a string that parses as JSON, the input itself otherwise. -/
def outgoingValue (env : Env) : GoValue → GoValue
  | .str s =>
    match env.jsonUnmarshal s with
    | some js => js
    | none => .str s
  | v => v

/-! ## Concrete inputs -/

/-- The bytes of an ASCII text. -/
def bytesOf (s : String) : Bytes := s.toList.map Char.toNat

/-- The body `{"data":{"id":"42"}}` of a response. -/
def widgetBody : Bytes := bytesOf "\x7b\"data\":\x7b\"id\":\"42\"\x7d\x7d"

/-- The `float64` bit pattern of a natural number below `2^53` (all of which are exact). -/
def float64OfNat (n : Nat) : Nat :=
  if n = 0 then 0
  else (1023 + Nat.log2 n) * 2 ^ 52 + (n - 2 ^ Nat.log2 n) * 2 ^ (52 - Nat.log2 n)

/-- The natural number a `float64` bit pattern stands for, when it stands for one. -/
def natOfFloat64 (bits : Nat) : Option Nat :=
  if bits = 0 then some 0
  else if 1023 ≤ bits / 2 ^ 52 ∧ bits / 2 ^ 52 ≤ 1075
      ∧ (2 ^ 52 + bits % 2 ^ 52) % 2 ^ (1075 - bits / 2 ^ 52) = 0 then
    some ((2 ^ 52 + bits % 2 ^ 52) / 2 ^ (1075 - bits / 2 ^ 52))
  else none

/-- An unsigned decimal integer as JSON writes it: digits only, no leading zero. -/
def isNumeral (s : String) : Bool :=
  match s.toList with
  | [] => false
  | [c] => c.isDigit
  | c :: rest => c.isDigit && c != '0' && rest.all Char.isDigit

/-- The value of an unsigned decimal integer. -/
def numeralValue (s : String) : Nat :=
  s.toList.foldl (fun n c => 10 * n + (c.toNat - 48)) 0

/-- The decoder of the examples.  As `json.Unmarshal` does, it decodes the text `{"a":1}`
to an object and an unsigned decimal integer below `2^53` to a `float64`.  Any other text
it reports as not JSON; that is what Go finds for the other texts the examples pass to
`isJSON` (`hello`, `static`, `extracted`, `foo`), while valid JSON of other shapes is not
covered by this decoder. -/
def exampleUnmarshal (s : String) : Option GoValue :=
  if s = "\x7b\"a\":1\x7d" then some (.object [("a", .float64 0x3FF0000000000000)])
  else if isNumeral s && decide (numeralValue s < 2 ^ 53) then
    some (.float64 (float64OfNat (numeralValue s)))
  else none

/-- The order in which `encoding/json` writes the keys of a map: by bytes, which for UTF-8
is the order of the code points. -/
def keyLe : List Char → List Char → Bool
  | [], _ => true
  | _ :: _, [] => false
  | a :: as, b :: bs =>
    if a.toNat < b.toNat then true
    else if b.toNat < a.toNat then false
    else keyLe as bs

/-- Insertion of an encoded field into a list sorted by key. -/
def insertField (e : String × String) : List (String × String) → List (String × String)
  | [] => [e]
  | f :: rest =>
    if keyLe e.1.toList f.1.toList then e :: f :: rest else f :: insertField e rest

/-- Encoded fields sorted by key. -/
def sortFields : List (String × String) → List (String × String)
  | [] => []
  | e :: rest => insertField e (sortFields rest)

/-- A JSON string literal for a text that needs no escaping. -/
def quoteText (s : String) : String := "\"" ++ s ++ "\""

/-- The members of a JSON object, from its encoded fields. -/
def joinFields (fields : List (String × String)) : String :=
  ",".intercalate ((sortFields fields).map (fun f => quoteText f.1 ++ ":" ++ f.2))

mutual
/-- The JSON text of a value, for the values the decoder above produces and for strings
that need no escaping: keys sorted, integers in decimal.  (A number that is not an integer
below `2^53` is not produced by the decoder above; it is written as `null` here.) -/
def encodeValue : GoValue → String
  | .null => "null"
  | .bool b => if b then "true" else "false"
  | .float64 bits =>
    match natOfFloat64 bits with
    | some n => toString n
    | none => "null"
  | .str s => quoteText s
  | .array xs => "[" ++ ",".intercalate (encodeValues xs) ++ "]"
  | .object kvs => "\x7b" ++ joinFields (encodeFields kvs) ++ "\x7d"
/-- The JSON texts of the elements of an array. -/
def encodeValues : List GoValue → List String
  | [] => []
  | x :: rest => encodeValue x :: encodeValues rest
/-- The keys of an object with the JSON texts of their values. -/
def encodeFields : List (String × GoValue) → List (String × String)
  | [] => []
  | (k, v) :: rest => (k, encodeValue v) :: encodeFields rest
end

/-- The encoder of the examples: `{"query":...,"variables":{...}}` and a newline, as
`json.NewEncoder(&buf).Encode(queryObj)` writes it for a query text and variable names that
need no escaping and for variable values as in `encodeValue`. -/
def exampleEncode (q : GqlQuery) : Bytes :=
  bytesOf ("\x7b\"query\":" ++ quoteText q.Query ++ ",\"variables\":\x7b"
    ++ joinFields (q.Variables.entries.map (fun e => (e.1, encodeValue e.2)))
    ++ "\x7d\x7d\n")

/-- An environment for the examples: the codec above, which never fails to encode; every
request can be built; the body `widgetBody` parses as an envelope without errors and as an
object, any other body the examples receive (the empty one) does not parse; the package
function `hash`, whose source is not at hand, is stood in for by a 32-bit polynomial hash;
the package function `computeMutationVariableKeys`, for the configured key `widgetId` with
the path `data.id`, finds the string under `data`, `id`. -/
def exampleEnv : Env where
  jsonUnmarshal := exampleUnmarshal
  jsonEncode := fun q => .ok (exampleEncode q)
  newRequestErr := none
  unmarshalResponse := fun body =>
    if body = widgetBody then .ok ⟨.object [("id", .str "42")], []⟩
    else .error (.lib "unexpected end of JSON input")
  hashSprint := fun body => toString (body.foldl (fun h b => (31 * h + b) % 4294967296) 0)
  unmarshalObject := fun body =>
    if body = widgetBody then
      .ok (AList.singleton "data" (.object [("id", .str "42")]))
    else .error (.lib "unexpected end of JSON input")
  computeMutationVariableKeys := fun dataKeys robj =>
    match dataKeys.lookup "widgetId", robj.lookup "data" with
    | some (.str path), some (.object [("id", .str value)]) =>
      if path = "data.id" then .ok (AList.singleton "widgetId" value)
      else .error (.lib "path not found")
    | _, _ => .error (.lib "path not found")
  jsonMarshal := fun v => .ok (encodeValue v)

/-- A mutation resource whose maps are empty and that does not exist yet. -/
def exampleData : ResourceData where
  read_query := "query"
  create_mutation := "create"
  delete_mutation := "delete"
  update_mutation := "update"
  mutation_variables := ∅
  read_query_variables := ∅
  delete_mutation_variables := ∅
  compute_mutation_keys := ∅
  compute_from_create := false
  computed_read_operation_variables := ∅
  computed_update_operation_variables := ∅
  computed_delete_operation_variables := ∅
  query_response := []
  existing_hash := ""
  id := ""

/-- The same fields in the data of a resource whose schema also declares the retry keys,
with the settings of the end-to-end scenario: `max_retries = 3`, `retry_delay = 10`, no
status code configured. -/
def retryData : QueryData :=
  { toResourceData := exampleData, max_retries := some 3, retry_delay := some 10,
    retry_status_codes := some [] }

/-- A server that answers 503 twice and then 200 with `widgetBody`; every request is read
in full. -/
def flakyNet : Nat → DoResult := fun attempt =>
  if attempt < 2 then .response ⟨503, .ok []⟩ 1000 else .response ⟨200, .ok widgetBody⟩ 1000

/-- A server that cannot be reached: every attempt is a transport error with a nil
response, and nothing of the request body is read. -/
def unreachableNet : Nat → DoResult := fun _ =>
  .failure (.lib "dial tcp: connection refused") none 0

/-- A server that answers 200 with `widgetBody` on every attempt. -/
def healthyNet : Nat → DoResult := fun _ => .response ⟨200, .ok widgetBody⟩ 1000

/-- A resource for which the same variable `id` is configured in `read_query_variables`
and stored in `computed_read_operation_variables`, with different values. -/
def conflictData : ResourceData :=
  { exampleData with
    read_query_variables := AList.singleton "id" (.str "static")
    computed_read_operation_variables := AList.singleton "id" (.str "extracted") }

/-- A resource with one configured read variable and nothing computed yet. -/
def pendingData : ResourceData :=
  { exampleData with read_query_variables := AList.singleton "id" (.str "7") }

/-- A resource that exists, with stored update variables `a = 1, b = 2` and the configured
mutation variable `b = 3`. -/
def existingData : ResourceData :=
  { exampleData with
    existing_hash := "3669730725"
    mutation_variables := AList.singleton "b" (.str "3")
    computed_update_operation_variables :=
      (AList.singleton "a" (GoValue.str "1")).insert "b" (.str "2") }

/-- A resource configured as in the end-to-end scenario: the key `widgetId` is computed
from `data.id`, and `widgetId` is also configured statically for read and delete, next to
a variable `name` that is only configured. -/
def widgetData : ResourceData :=
  { exampleData with
    compute_mutation_keys := AList.singleton "widgetId" (.str "data.id")
    mutation_variables := AList.singleton "name" (.str "foo")
    read_query_variables :=
      (AList.singleton "widgetId" (GoValue.str "0")).insert "name" (.str "foo")
    delete_mutation_variables :=
      (AList.singleton "widgetId" (GoValue.str "0")).insert "name" (.str "foo") }

/-! ## The retry loop -/

theorem attemptsOf_append (l₁ l₂ : List Event) :
    attemptsOf (l₁ ++ l₂) = attemptsOf l₁ ++ attemptsOf l₂ := by
  induction l₁ with
  | nil => rfl
  | cons e rest ih => cases e <;> simp [attemptsOf, ih]

theorem sleepsOf_append (l₁ l₂ : List Event) :
    sleepsOf (l₁ ++ l₂) = sleepsOf l₁ ++ sleepsOf l₂ := by
  induction l₁ with
  | nil => rfl
  | cons e rest ih => cases e <;> simp [sleepsOf, ih]

theorem bodiesOf_append (l₁ l₂ : List Event) :
    bodiesOf (l₁ ++ l₂) = bodiesOf l₁ ++ bodiesOf l₂ := by
  induction l₁ with
  | nil => rfl
  | cons e rest ih => cases e <;> simp [bodiesOf, ih]

theorem attemptsOf_backoffStep (maxRetries retryWaitMs : Int) (a : Nat) (tr : List Event) :
    attemptsOf (backoffStep maxRetries retryWaitMs a tr) = attemptsOf tr := by
  unfold backoffStep
  split
  · simp [attemptsOf_append, attemptsOf]
  · rfl

theorem sleepsOf_backoffStep (maxRetries retryWaitMs : Int) (a : Nat) (tr : List Event) :
    sleepsOf (backoffStep maxRetries retryWaitMs a tr)
      = sleepsOf tr ++ scheduledSleeps maxRetries retryWaitMs a 1 := by
  unfold backoffStep scheduledSleeps
  by_cases h : (a : Int) < maxRetries
  · simp [h, sleepsOf_append, sleepsOf, List.range']
  · simp [h, List.range']

theorem shape_backoffStep (maxRetries retryWaitMs : Int) (a : Nat) (tr : List Event)
    (body : Bytes) :
    (backoffStep maxRetries retryWaitMs a (tr ++ [Event.request a body])).map Event.shape
      = tr.map Event.shape ++ failedAttemptShape maxRetries retryWaitMs a := by
  unfold backoffStep failedAttemptShape
  by_cases h : (a : Int) < maxRetries <;> simp [h, Event.shape]

theorem scheduledSleeps_succ (maxRetries retryWaitMs : Int) (a n : Nat) :
    scheduledSleeps maxRetries retryWaitMs a (n + 1)
      = scheduledSleeps maxRetries retryWaitMs a 1
          ++ scheduledSleeps maxRetries retryWaitMs (a + 1) n := by
  unfold scheduledSleeps
  rw [List.range'_succ]
  by_cases h : (a : Int) < maxRetries <;> simp [h, List.range', List.filter_cons]

/-- One iteration on an attempt that does not end the retries. -/
theorem retryLoop_step_retry (env : Env) (net : Nat → DoResult) (maxRetries retryWaitMs : Int)
    (codes : List Int) (fuel a : Nat) (st : LoopState)
    (hreq : env.newRequestErr = none) (ha : (a : Int) ≤ maxRetries)
    (hbad : stopsRetry codes (net a) = false) :
    retryLoop env net maxRetries retryWaitMs codes (fuel + 1) a st
      = retryLoop env net maxRetries retryWaitMs codes fuel (a + 1)
          { st with resp := (net a).resp,
                    queryBodyBuffer := st.queryBodyBuffer.drop (net a).consumed,
                    trace := backoffStep maxRetries retryWaitMs a
                      (st.trace ++ [Event.request a st.queryBodyBuffer]) } := by
  rw [retryLoop]
  simp only [ha, if_true, hreq]
  cases hn : net a with
  | response resp consumed =>
    rw [hn] at hbad
    simp only [stopsRetry, Bool.not_eq_false_eq_eq_true] at hbad
    simp [hbad, DoResult.resp, DoResult.consumed]
  | failure err resp consumed =>
    simp [DoResult.resp, DoResult.consumed]

/-- One iteration on an attempt that ends the retries: the `break` of line 90. -/
theorem retryLoop_step_stop (env : Env) (net : Nat → DoResult) (maxRetries retryWaitMs : Int)
    (codes : List Int) (fuel a : Nat) (st : LoopState)
    (hreq : env.newRequestErr = none) (ha : (a : Int) ≤ maxRetries)
    (hgood : stopsRetry codes (net a) = true) :
    retryLoop env net maxRetries retryWaitMs codes (fuel + 1) a st
      = .exited { st with resp := (net a).resp,
                          queryBodyBuffer := st.queryBodyBuffer.drop (net a).consumed,
                          trace := st.trace ++ [Event.request a st.queryBodyBuffer] } := by
  rw [retryLoop]
  simp only [ha, if_true, hreq]
  cases hn : net a with
  | response resp consumed =>
    rw [hn] at hgood
    simp only [stopsRetry] at hgood
    simp [hgood, DoResult.resp, DoResult.consumed]
  | failure err resp consumed =>
    rw [hn] at hgood
    simp [stopsRetry] at hgood

/-- The loop is left by its condition once `attempt` exceeds `maxRetries`. -/
theorem retryLoop_past (env : Env) (net : Nat → DoResult) (maxRetries retryWaitMs : Int)
    (codes : List Int) (fuel a : Nat) (st : LoopState) (ha : maxRetries < (a : Int)) :
    retryLoop env net maxRetries retryWaitMs codes fuel a st = .exited st := by
  cases fuel with
  | zero => rfl
  | succ f =>
    rw [retryLoop]
    simp [not_le.mpr ha]

/-- The fuel given by `queryExecute` is enough: more fuel changes nothing, so the loop always
ends by its own condition, by `break` or by `return`. -/
theorem retryLoop_fuel (env : Env) (net : Nat → DoResult) (maxRetries retryWaitMs : Int)
    (codes : List Int) :
    ∀ (fuel a : Nat) (st : LoopState), (maxRetries + 1 - a).toNat ≤ fuel →
      retryLoop env net maxRetries retryWaitMs codes fuel a st
        = retryLoop env net maxRetries retryWaitMs codes (maxRetries + 1 - a).toNat a st := by
  intro fuel
  induction fuel with
  | zero =>
    intro a st h
    have h0 : (maxRetries + 1 - a).toNat = 0 := by omega
    rw [h0]
  | succ f ih =>
    intro a st h
    by_cases ha : (a : Int) ≤ maxRetries
    · obtain ⟨k, hk⟩ : ∃ k, (maxRetries + 1 - a).toNat = k + 1 := ⟨(maxRetries - a).toNat, by omega⟩
      have hk1 : (maxRetries + 1 - ((a + 1 : Nat) : Int)).toNat = k := by omega
      have hkf : (maxRetries + 1 - ((a + 1 : Nat) : Int)).toNat ≤ f := by omega
      rw [hk, retryLoop, retryLoop]
      simp only [ha, if_true]
      cases env.newRequestErr with
      | some err => rfl
      | none =>
        cases net a with
        | response resp consumed =>
          simp only []
          split
          · rfl
          · rw [ih _ _ hkf, hk1]
        | failure err resp consumed =>
          simp only []
          rw [ih _ _ hkf, hk1]
    · rw [retryLoop_past _ _ _ _ _ _ _ _ (not_le.mp ha),
        retryLoop_past _ _ _ _ _ _ _ _ (not_le.mp ha)]

/-- The loop sends at most one request per value of `attempt` from the current one up to
`maxRetries`, whatever the fuel. -/
theorem retryLoop_attempts_le (env : Env) (net : Nat → DoResult) (maxRetries retryWaitMs : Int)
    (codes : List Int) :
    ∀ (fuel a : Nat) (st : LoopState),
      (attemptsOf (retryLoop env net maxRetries retryWaitMs codes fuel a st).events).length
        ≤ (attemptsOf st.trace).length + (maxRetries + 1 - a).toNat := by
  intro fuel
  induction fuel with
  | zero => intro a st; simp [retryLoop, LoopResult.events]
  | succ f ih =>
    intro a st
    by_cases ha : (a : Int) ≤ maxRetries
    · have hk : (maxRetries + 1 - a).toNat
          = (maxRetries + 1 - ((a + 1 : Nat) : Int)).toNat + 1 := by omega
      rw [retryLoop]
      simp only [ha, if_true]
      cases env.newRequestErr with
      | some err => simp [LoopResult.events]
      | none =>
        cases net a with
        | response resp consumed =>
          simp only []
          split
          · simp only [LoopResult.events, attemptsOf_append, attemptsOf, List.length_append,
              List.length_singleton]
            omega
          · refine le_trans (ih _ _) ?_
            simp only [attemptsOf_backoffStep, attemptsOf_append, attemptsOf,
              List.length_append, List.length_singleton]
            omega
        | failure err resp consumed =>
          simp only []
          refine le_trans (ih _ _) ?_
          simp only [attemptsOf_backoffStep, attemptsOf_append, attemptsOf,
            List.length_append, List.length_singleton]
          omega
    · rw [retryLoop_past _ _ _ _ _ _ _ _ (not_le.mp ha)]
      simp [LoopResult.events]

/-- A run of `n` attempts none of which ends the retries: the loop goes on from attempt
`a + n`, having sent one request per attempt and slept after those below `maxRetries`. -/
theorem retryLoop_retries (env : Env) (net : Nat → DoResult) (maxRetries retryWaitMs : Int)
    (codes : List Int) (hreq : env.newRequestErr = none) :
    ∀ (n fuel a : Nat) (st : LoopState), ((a + n : Nat) : Int) ≤ maxRetries + 1 →
      (∀ i, a ≤ i → i < a + n → stopsRetry codes (net i) = false) →
      ∃ st1 : LoopState,
        retryLoop env net maxRetries retryWaitMs codes (fuel + n) a st
          = retryLoop env net maxRetries retryWaitMs codes fuel (a + n) st1
        ∧ attemptsOf st1.trace = attemptsOf st.trace ++ List.range' a n
        ∧ sleepsOf st1.trace = sleepsOf st.trace ++ scheduledSleeps maxRetries retryWaitMs a n
        ∧ st1.trace.map Event.shape = st.trace.map Event.shape
            ++ (List.range' a n).flatMap (failedAttemptShape maxRetries retryWaitMs)
        ∧ st1.err = st.err
        ∧ (n = 0 → st1.resp = st.resp)
        ∧ (0 < n → st1.resp = (net (a + n - 1)).resp) := by
  intro n
  induction n with
  | zero =>
    intro fuel a st _ _
    exact ⟨st, rfl, by simp, by simp [scheduledSleeps], by simp, rfl, fun _ => rfl, by simp⟩
  | succ n ih =>
    intro fuel a st hle hbad
    have ha : (a : Int) ≤ maxRetries := by omega
    have hstep := retryLoop_step_retry env net maxRetries retryWaitMs codes (fuel + n) a st
      hreq ha (hbad a (le_refl a) (by omega))
    obtain ⟨st1, hrun, hatt, hsl, hshape, herr, hresp0, hresp⟩ := ih fuel (a + 1)
      { st with resp := (net a).resp,
                queryBodyBuffer := st.queryBodyBuffer.drop (net a).consumed,
                trace := backoffStep maxRetries retryWaitMs a
                  (st.trace ++ [Event.request a st.queryBodyBuffer]) }
      (by omega) (fun i h1 h2 => hbad i (by omega) (by omega))
    refine ⟨st1, ?_, ?_, ?_, ?_, ?_, ?_, ?_⟩
    · rw [show fuel + (n + 1) = fuel + n + 1 by omega, hstep, hrun,
        show a + 1 + n = a + (n + 1) by omega]
    · rw [hatt]
      show attemptsOf (backoffStep _ _ _ _) ++ _ = _
      rw [attemptsOf_backoffStep, attemptsOf_append, List.range'_succ]
      simp [attemptsOf]
    · rw [hsl]
      show sleepsOf (backoffStep _ _ _ _) ++ _ = _
      rw [sleepsOf_backoffStep, sleepsOf_append,
        scheduledSleeps_succ maxRetries retryWaitMs a n]
      simp [sleepsOf]
    · rw [hshape]
      show (backoffStep _ _ _ _).map Event.shape ++ _ = _
      rw [shape_backoffStep, List.range'_succ, List.flatMap_cons, List.append_assoc]
    · rw [herr]
    · intro h0
      omega
    · intro _
      rcases Nat.eq_zero_or_pos n with h0 | hpos
      · rw [hresp0 h0, h0]
        rfl
      · rw [hresp hpos]
        congr 2
        omega

/-- Up to the retry loop, `queryExecute` builds the request object, encodes it and reads
the retry settings; when the resource declares them, its events are those of the loop
started on the encoded body. -/
theorem queryExecute_loop (env : Env) (net : Nat → DoResult) (d : QueryData)
    (qs : QuerySource) (vs : VariableSource) (q : GqlQuery) (body : Bytes)
    (maxRetries retryWaitMs : Int) (codes : List Int)
    (hq : buildQueryObj env (d.getQuery qs) (d.getVariables vs) = .ret q)
    (henc : env.jsonEncode q = .ok body)
    (hmax : d.max_retries = some maxRetries) (hdelay : d.retry_delay = some retryWaitMs)
    (hcodes : d.retry_status_codes = some codes) :
    (queryExecute env net d qs vs).events
      = (retryLoop env net maxRetries retryWaitMs (effectiveStatusCodes codes)
          (maxRetries + 1).toNat 0 ⟨none, none, body, []⟩).events := by
  unfold queryExecute
  simp only [hq, henc, hmax, hdelay, hcodes]
  split <;> rename_i h <;> rw [h] <;> rfl

/-- When the loop is left (not returned from), `queryExecute` goes on with `readResponse`. -/
theorem queryExecute_result (env : Env) (net : Nat → DoResult) (d : QueryData)
    (qs : QuerySource) (vs : VariableSource) (q : GqlQuery) (body : Bytes) (st : LoopState)
    (maxRetries retryWaitMs : Int) (codes : List Int)
    (hq : buildQueryObj env (d.getQuery qs) (d.getVariables vs) = .ret q)
    (henc : env.jsonEncode q = .ok body)
    (hmax : d.max_retries = some maxRetries) (hdelay : d.retry_delay = some retryWaitMs)
    (hcodes : d.retry_status_codes = some codes)
    (hloop : retryLoop env net maxRetries retryWaitMs (effectiveStatusCodes codes)
          (maxRetries + 1).toNat 0 ⟨none, none, body, []⟩ = .exited st) :
    (queryExecute env net d qs vs).result = readResponse env st := by
  unfold queryExecute
  simp only [hq, henc, hmax, hdelay, hcodes, hloop]

/-- A run that meets its first attempt ending the retries at `j <= maxRetries`: requests on
attempts `0..j`, a sleep after each of the attempts before `j`, and the loop is left with
the response of attempt `j`. -/
theorem retryLoop_stops_at (env : Env) (net : Nat → DoResult) (maxRetries retryWaitMs : Int)
    (codes : List Int) (body : Bytes) (hreq : env.newRequestErr = none) (j : Nat)
    (hj : (j : Int) ≤ maxRetries) (hgood : stopsRetry codes (net j) = true)
    (hfirst : ∀ i, i < j → stopsRetry codes (net i) = false) :
    ∃ st : LoopState,
      retryLoop env net maxRetries retryWaitMs codes (maxRetries + 1).toNat 0
        ⟨none, none, body, []⟩ = .exited st
      ∧ attemptsOf st.trace = List.range (j + 1)
      ∧ sleepsOf st.trace = (List.range j).map (fun a => exponentialBackoff a retryWaitMs)
      ∧ st.trace.map Event.shape
          = (List.range j).flatMap (failedAttemptShape maxRetries retryWaitMs)
              ++ [Event.request j []]
      ∧ st.err = none ∧ st.resp = (net j).resp := by
  obtain ⟨f, hf⟩ : ∃ f, (maxRetries + 1).toNat = f + 1 + j := ⟨(maxRetries - j).toNat, by omega⟩
  obtain ⟨st1, hrun, hatt, hsl, hshape, herr, -, -⟩ :=
    retryLoop_retries env net maxRetries retryWaitMs codes hreq j (f + 1) 0
      ⟨none, none, body, []⟩ (by omega) (fun i _ h2 => hfirst i (by omega))
  refine ⟨{ st1 with resp := (net (0 + j)).resp,
                      queryBodyBuffer := st1.queryBodyBuffer.drop (net (0 + j)).consumed,
                      trace := st1.trace ++ [Event.request (0 + j) st1.queryBodyBuffer] },
    ?_, ?_, ?_, ?_, ?_, ?_⟩
  · rw [hf, hrun, retryLoop_step_stop env net maxRetries retryWaitMs codes f (0 + j) st1 hreq
      (by omega) (by simpa using hgood)]
  · simp only [attemptsOf_append, hatt, attemptsOf, List.nil_append, Nat.zero_add]
    rw [List.range_succ, List.range_eq_range']
  · simp only [sleepsOf_append, hsl, sleepsOf, List.nil_append, List.append_nil,
      scheduledSleeps]
    rw [List.range_eq_range', List.filter_eq_self.mpr]
    intro i hi
    have := (List.mem_range'_1.mp hi).2
    simp only [decide_eq_true_eq]
    omega
  · simp only [List.map_append, hshape, List.map_nil, List.nil_append, List.map_cons,
      Event.shape, Nat.zero_add]
    rw [List.range_eq_range']
  · simpa using herr
  · simp

/-- A run in which no attempt up to `maxRetries` ends the retries: requests on attempts
`0..maxRetries`, a sleep after each of them but the last. -/
theorem retryLoop_exhausts (env : Env) (net : Nat → DoResult) (maxRetries retryWaitMs : Int)
    (codes : List Int) (body : Bytes) (hreq : env.newRequestErr = none)
    (h0 : 0 ≤ maxRetries)
    (hbad : ∀ i : Nat, (i : Int) ≤ maxRetries → stopsRetry codes (net i) = false) :
    ∃ st : LoopState,
      retryLoop env net maxRetries retryWaitMs codes (maxRetries + 1).toNat 0
        ⟨none, none, body, []⟩ = .exited st
      ∧ attemptsOf st.trace = List.range (maxRetries.toNat + 1)
      ∧ sleepsOf st.trace
          = (List.range maxRetries.toNat).map (fun a => exponentialBackoff a retryWaitMs)
      ∧ st.trace.map Event.shape
          = (List.range (maxRetries.toNat + 1)).flatMap
              (failedAttemptShape maxRetries retryWaitMs)
      ∧ st.err = none ∧ st.resp = (net maxRetries.toNat).resp := by
  obtain ⟨st1, hrun, hatt, hsl, hshape, herr, -, hresp⟩ :=
    retryLoop_retries env net maxRetries retryWaitMs codes hreq (maxRetries.toNat + 1) 0 0
      ⟨none, none, body, []⟩ (by omega) (fun i _ h2 => hbad i (by omega))
  refine ⟨st1, ?_, ?_, ?_, ?_, ?_, ?_⟩
  · rw [show (maxRetries + 1).toNat = 0 + (maxRetries.toNat + 1) by omega, hrun]
    exact retryLoop_past _ _ _ _ _ _ _ _ (by omega)
  · rw [hatt, List.range_eq_range']
    rfl
  · rw [hsl]
    simp only [sleepsOf, List.nil_append, scheduledSleeps]
    rw [List.range'_concat, List.filter_append, List.range_eq_range']
    have h1 : List.filter (fun i : Nat => decide ((i : Int) < maxRetries))
        (List.range' 0 maxRetries.toNat) = List.range' 0 maxRetries.toNat := by
      rw [List.filter_eq_self]
      intro i hi
      have := (List.mem_range'_1.mp hi).2
      simp only [decide_eq_true_eq]
      omega
    have h2 : List.filter (fun i : Nat => decide ((i : Int) < maxRetries))
        [0 + 1 * maxRetries.toNat] = [] := by
      simp only [List.filter_cons, List.filter_nil]
      rw [if_neg]
      simp only [decide_eq_true_eq]
      omega
    rw [h1, h2, List.append_nil]
  · rw [hshape, List.range_eq_range']
    rfl
  · simpa using herr
  · rw [hresp (by omega)]
    congr 2
    omega

/-! ## Claims about `queryExecute` -/

theorem stopsRetry_of_okStatus (codes : List Int) (r : DoResult) (status : Int)
    (h : r.okStatus = some status) : stopsRetry codes r = !contains codes status := by
  cases r with
  | response resp consumed =>
    simp only [DoResult.okStatus, Option.some.injEq] at h
    simp [stopsRetry, h]
  | failure err resp consumed => simp [DoResult.okStatus] at h

theorem wrapInt64_of_range (x : Int) (h0 : 0 ≤ x) (h1 : x < 2 ^ 63) : wrapInt64 x = x := by
  have e63 : (2 : Int) ^ 63 = 9223372036854775808 := by norm_num
  have e64 : (2 : Int) ^ 64 = 18446744073709551616 := by norm_num
  unfold wrapInt64
  rw [e63] at h1 ⊢
  rw [e64]
  omega

/-- In the range where nothing overflows, the backoff is `2^attempt * multiplier` ms. -/
theorem exponentialBackoff_exact (attempt : Nat) (multiplier : Int) (h0 : 0 ≤ multiplier)
    (h1 : 2 ^ attempt * multiplier * 1000000 < 2 ^ 63) :
    exponentialBackoff attempt multiplier = 2 ^ attempt * multiplier * millisecond := by
  have hx : 0 ≤ (2 : Int) ^ attempt * multiplier := mul_nonneg (pow_nonneg (by norm_num) _) h0
  have hx1 : (2 : Int) ^ attempt * multiplier < 2 ^ 63 := by
    have : (2 : Int) ^ attempt * multiplier ≤ 2 ^ attempt * multiplier * 1000000 := by
      nlinarith
    omega
  unfold exponentialBackoff millisecond
  rw [wrapInt64_of_range _ hx hx1, wrapInt64_of_range _ (by positivity) h1]

theorem sum_pow_two_mul (c : Int) (n : Nat) :
    ((List.range n).map (fun a => (2 : Int) ^ a * c)).sum = (2 ^ n - 1) * c := by
  induction n with
  | zero => simp
  | succ n ih =>
    rw [List.range_succ, List.map_append, List.sum_append, ih]
    simp only [List.map_cons, List.map_nil, List.sum_cons, List.sum_nil, add_zero]
    ring

/-- The sleeps after attempts `0..n-1` add up to `(2^n - 1) * multiplier` ms. -/
theorem sum_exponentialBackoff (n : Nat) (multiplier : Int) (h0 : 0 ≤ multiplier)
    (h1 : 2 ^ n * multiplier * 1000000 < 2 ^ 63) :
    ((List.range n).map (fun a => exponentialBackoff a multiplier)).sum
      = (2 ^ n - 1) * multiplier * millisecond := by
  have hcongr : (List.range n).map (fun a => exponentialBackoff a multiplier)
      = (List.range n).map (fun a => (2 : Int) ^ a * (multiplier * millisecond)) := by
    apply List.map_congr_left
    intro a ha
    have han : a ≤ n := le_of_lt (List.mem_range.mp ha)
    have hpow : (2 : Int) ^ a ≤ 2 ^ n := pow_le_pow_right₀ (by norm_num) han
    rw [exponentialBackoff_exact a multiplier h0, mul_assoc]
    have : (2 : Int) ^ a * multiplier * 1000000 ≤ 2 ^ n * multiplier * 1000000 := by
      have := mul_le_mul_of_nonneg_right hpow h0
      nlinarith
    omega
  rw [hcongr, sum_pow_two_mul, mul_assoc]

/-- When no attempt ends in a response (every `client.Do` is a transport error with a nil
response), the outer `err` is still nil after the loop and `resp` is nil: the deferred
`resp.Body.Close()` of line 103 dereferences nil. -/
theorem queryExecute_unreachable (env : Env) (net : Nat → DoResult) (d : QueryData)
    (qs : QuerySource) (vs : VariableSource) (q : GqlQuery) (body : Bytes)
    (maxRetries retryWaitMs : Int) (codes : List Int)
    (hmax : d.max_retries = some maxRetries) (hdelay : d.retry_delay = some retryWaitMs)
    (hcodes : d.retry_status_codes = some codes)
    (h0 : 0 ≤ maxRetries) (hreq : env.newRequestErr = none)
    (hq : buildQueryObj env (d.getQuery qs) (d.getVariables vs) = .ret q)
    (henc : env.jsonEncode q = .ok body)
    (hfail : ∀ i : Nat, (i : Int) ≤ maxRetries →
      ∃ err consumed, net i = .failure err none consumed) :
    (queryExecute env net d qs vs).result
      = .panic "invalid memory address or nil pointer dereference" := by
  obtain ⟨st, hloop, -, -, -, herr, hresp⟩ :=
    retryLoop_exhausts env net maxRetries retryWaitMs
      (effectiveStatusCodes codes) body hreq h0
      (fun i hi => by
        obtain ⟨err, consumed, hn⟩ := hfail i hi
        rw [hn]
        rfl)
  obtain ⟨err, consumed, hn⟩ := hfail maxRetries.toNat (by omega)
  rw [hn] at hresp
  rw [queryExecute_result env net d qs vs q body st maxRetries retryWaitMs codes hq henc
    hmax hdelay hcodes hloop]
  unfold readResponse
  rw [herr, hresp]
  rfl

/-- C1: with `max_retries >= 0`, the retry loop of `queryExecute` sends at most
`max_retries + 1` requests; it stops at exactly the first attempt whose transport error is
nil and whose status code is not retryable (requests on attempts `0..j` and no more); when
attempt 0 is such an attempt, exactly one request is sent and nothing is slept. -/
theorem queryExecute_retry_attempts (env : Env) (net : Nat → DoResult) (d : QueryData)
    (qs : QuerySource) (vs : VariableSource) (q : GqlQuery) (body : Bytes)
    (maxRetries retryWaitMs : Int) (codes : List Int)
    (hmax : d.max_retries = some maxRetries) (hdelay : d.retry_delay = some retryWaitMs)
    (hcodes : d.retry_status_codes = some codes)
    (h0 : 0 ≤ maxRetries) (hreq : env.newRequestErr = none)
    (hq : buildQueryObj env (d.getQuery qs) (d.getVariables vs) = .ret q)
    (henc : env.jsonEncode q = .ok body) :
    ((attemptsOf (queryExecute env net d qs vs).events).length : Int) ≤ maxRetries + 1
    ∧ (∀ j : Nat, (j : Int) ≤ maxRetries →
        stopsRetry (effectiveStatusCodes codes) (net j) = true →
        (∀ i, i < j → stopsRetry (effectiveStatusCodes codes) (net i) = false) →
        attemptsOf (queryExecute env net d qs vs).events = List.range (j + 1))
    ∧ (stopsRetry (effectiveStatusCodes codes) (net 0) = true →
        attemptsOf (queryExecute env net d qs vs).events = [0]
        ∧ sleepsOf (queryExecute env net d qs vs).events = []) := by
  rw [queryExecute_loop env net d qs vs q body maxRetries retryWaitMs codes hq henc hmax
    hdelay hcodes]
  refine ⟨?_, ?_, ?_⟩
  · have h := retryLoop_attempts_le env net maxRetries retryWaitMs
      (effectiveStatusCodes codes) (maxRetries + 1).toNat 0
      ⟨none, none, body, []⟩
    simp only [attemptsOf, List.length_nil, Nat.zero_add] at h
    omega
  · intro j hj hgood hfirst
    obtain ⟨st, hloop, hatt, -, -, -, -⟩ :=
      retryLoop_stops_at env net maxRetries retryWaitMs
        (effectiveStatusCodes codes) body hreq j hj hgood hfirst
    rw [hloop]
    exact hatt
  · intro hgood
    obtain ⟨st, hloop, hatt, hsl, -, -, -⟩ :=
      retryLoop_stops_at env net maxRetries retryWaitMs
        (effectiveStatusCodes codes) body hreq 0 h0 hgood
        (fun i hi => absurd hi (Nat.not_lt_zero i))
    rw [hloop]
    exact ⟨hatt, hsl⟩

/-- C1 at concrete inputs: a server that answers 200 at once, and one that answers 503, 503,
200, with `max_retries = 3`. -/
theorem queryExecute_retry_attempts_witness :
    ((attemptsOf (queryExecute exampleEnv healthyNet retryData
        .create_mutation .mutation_variables).events).length : Int) ≤ 3 + 1
    ∧ attemptsOf (queryExecute exampleEnv flakyNet retryData
        .create_mutation .mutation_variables).events = List.range (2 + 1)
    ∧ attemptsOf (queryExecute exampleEnv healthyNet retryData
        .create_mutation .mutation_variables).events = [0]
    ∧ sleepsOf (queryExecute exampleEnv healthyNet retryData
        .create_mutation .mutation_variables).events = [] :=
  ⟨(queryExecute_retry_attempts exampleEnv healthyNet retryData .create_mutation
      .mutation_variables _ _ 3 10 [] rfl rfl rfl (by decide) rfl rfl rfl).1,
   (queryExecute_retry_attempts exampleEnv flakyNet retryData .create_mutation
      .mutation_variables _ _ 3 10 [] rfl rfl rfl (by decide) rfl rfl rfl).2.1 2
      (by decide) (by decide) (by decide),
   (queryExecute_retry_attempts exampleEnv healthyNet retryData .create_mutation
      .mutation_variables _ _ 3 10 [] rfl rfl rfl (by decide) rfl rfl rfl).2.2
      (by decide)⟩

/-- C2 (the code at the failing input): with `max_retries = 3` and a server that cannot be
reached, all four attempts end in a transport error, and `queryExecute` does not return
that error: it panics on the nil response. -/
theorem queryExecute_transport_error_panics :
    attemptsOf (queryExecute exampleEnv unreachableNet retryData
        .create_mutation .mutation_variables).events = [0, 1, 2, 3]
    ∧ (queryExecute exampleEnv unreachableNet retryData
        .create_mutation .mutation_variables).result
      = .panic "invalid memory address or nil pointer dereference" :=
  ⟨by decide, queryExecute_unreachable exampleEnv unreachableNet retryData .create_mutation
      .mutation_variables _ _ 3 10 [] rfl rfl rfl (by decide) rfl rfl rfl
      (fun _ _ => ⟨_, _, rfl⟩)⟩

/-- C3 (the code at the failing input): the server answers 503, 503, 200 and reads every
request in full.  The request of attempt 0 carries the encoded query; the requests of
attempts 1 and 2 are built from the same, now drained, buffer and carry an empty body. -/
theorem queryExecute_retry_body_empty :
    bodiesOf (queryExecute exampleEnv flakyNet retryData
        .create_mutation .mutation_variables).events
      = [bytesOf "\x7b\"query\":\"create\",\"variables\":\x7b\x7d\x7d\n", [], []] := by
  decide

/-- C4: in the range where nothing overflows, `exponentialBackoff attempt retryDelayMs` is
`2^attempt * retryDelayMs` milliseconds; a run of `queryExecute` in which all
`max_retries + 1` attempts fail sleeps that long right after each attempt below
`max_retries` and not after the last, `(2^max_retries - 1) * retry_delay` ms in total; a run that stops at
attempt `j` has slept right after each of the attempts before `j` and not after `j`; statuses 503, 503, 200 with
`max_retries = 3` and `retry_delay = 10` give three attempts and sleeps of 10 ms, 20 ms. -/
theorem queryExecute_backoff_schedule (env : Env) (net : Nat → DoResult) (d : QueryData)
    (qs : QuerySource) (vs : VariableSource) (q : GqlQuery) (body : Bytes)
    (maxRetries retryWaitMs : Int) (codes : List Int)
    (hmax : d.max_retries = some maxRetries) (hdelay : d.retry_delay = some retryWaitMs)
    (hcodes : d.retry_status_codes = some codes)
    (h0 : 0 ≤ maxRetries) (hreq : env.newRequestErr = none)
    (hq : buildQueryObj env (d.getQuery qs) (d.getVariables vs) = .ret q)
    (henc : env.jsonEncode q = .ok body) :
    (∀ (attempt : Nat) (retryDelayMs : Int), 0 ≤ retryDelayMs →
        2 ^ attempt * retryDelayMs * 1000000 < 2 ^ 63 →
        exponentialBackoff attempt retryDelayMs = 2 ^ attempt * retryDelayMs * millisecond)
    ∧ ((∀ i : Nat, (i : Int) ≤ maxRetries →
          stopsRetry (effectiveStatusCodes codes) (net i) = false) →
        attemptsOf (queryExecute env net d qs vs).events = List.range (maxRetries.toNat + 1)
        ∧ (queryExecute env net d qs vs).events.map Event.shape
            = (List.range (maxRetries.toNat + 1)).flatMap
                (failedAttemptShape maxRetries retryWaitMs)
        ∧ sleepsOf (queryExecute env net d qs vs).events
            = (List.range maxRetries.toNat).map
                (fun a => exponentialBackoff a retryWaitMs)
        ∧ (0 ≤ retryWaitMs → 2 ^ maxRetries.toNat * retryWaitMs * 1000000 < 2 ^ 63 →
            (sleepsOf (queryExecute env net d qs vs).events).sum
              = (2 ^ maxRetries.toNat - 1) * retryWaitMs * millisecond))
    ∧ (∀ j : Nat, (j : Int) ≤ maxRetries →
        stopsRetry (effectiveStatusCodes codes) (net j) = true →
        (∀ i, i < j →
          stopsRetry (effectiveStatusCodes codes) (net i) = false) →
        sleepsOf (queryExecute env net d qs vs).events
          = (List.range j).map (fun a => exponentialBackoff a retryWaitMs)
        ∧ (queryExecute env net d qs vs).events.map Event.shape
          = (List.range j).flatMap (failedAttemptShape maxRetries retryWaitMs)
              ++ [Event.request j []])
    ∧ (maxRetries = 3 → retryWaitMs = 10 → codes = [] →
        (net 0).okStatus = some 503 → (net 1).okStatus = some 503 →
        (net 2).okStatus = some 200 →
        attemptsOf (queryExecute env net d qs vs).events = [0, 1, 2]
        ∧ sleepsOf (queryExecute env net d qs vs).events
            = [10 * millisecond, 20 * millisecond]) := by
  rw [queryExecute_loop env net d qs vs q body maxRetries retryWaitMs codes hq henc hmax
    hdelay hcodes]
  refine ⟨exponentialBackoff_exact, ?_, ?_, ?_⟩
  · intro hbad
    obtain ⟨st, hloop, hatt, hsl, hshape, -, -⟩ :=
      retryLoop_exhausts env net maxRetries retryWaitMs
        (effectiveStatusCodes codes) body hreq h0 hbad
    rw [hloop]
    refine ⟨hatt, hshape, hsl, ?_⟩
    intro hd hrange
    show (sleepsOf st.trace).sum = _
    rw [hsl]
    exact sum_exponentialBackoff _ _ hd hrange
  · intro j hj hgood hfirst
    obtain ⟨st, hloop, -, hsl, hshape, -, -⟩ :=
      retryLoop_stops_at env net maxRetries retryWaitMs
        (effectiveStatusCodes codes) body hreq j hj hgood hfirst
    rw [hloop]
    exact ⟨hsl, hshape⟩
  · intro hM hD hC s0 s1 s2
    have hdefault : effectiveStatusCodes codes = [429, 503, 504, 500] := by
      rw [hC]
      rfl
    obtain ⟨st, hloop, hatt, hsl, -, -, -⟩ :=
      retryLoop_stops_at env net maxRetries retryWaitMs
        (effectiveStatusCodes codes) body hreq 2 (by omega)
        (by rw [stopsRetry_of_okStatus _ _ _ s2, hdefault]; decide)
        (fun i hi => by
          have hi01 : i = 0 ∨ i = 1 := by omega
          rcases hi01 with rfl | rfl
          · rw [stopsRetry_of_okStatus _ _ _ s0, hdefault]; decide
          · rw [stopsRetry_of_okStatus _ _ _ s1, hdefault]; decide)
    rw [hloop]
    refine ⟨hatt, ?_⟩
    show sleepsOf st.trace = _
    rw [hsl, hD]
    decide

/-- C4 at concrete inputs: `max_retries = 3`, `retry_delay = 10`, a server that is never
reached and one that answers 503, 503, 200. -/
theorem queryExecute_backoff_schedule_witness :
    exponentialBackoff 1 10 = 2 ^ 1 * 10 * millisecond
    ∧ ((sleepsOf (queryExecute exampleEnv unreachableNet retryData
          .create_mutation .mutation_variables).events).sum
        = (2 ^ 3 - 1) * 10 * millisecond)
    ∧ (attemptsOf (queryExecute exampleEnv flakyNet retryData
          .create_mutation .mutation_variables).events = [0, 1, 2]
      ∧ sleepsOf (queryExecute exampleEnv flakyNet retryData
          .create_mutation .mutation_variables).events
        = [10 * millisecond, 20 * millisecond]) :=
  ⟨(queryExecute_backoff_schedule exampleEnv flakyNet retryData .create_mutation
      .mutation_variables _ _ 3 10 [] rfl rfl rfl (by decide) rfl rfl rfl).1 1 10
      (by decide) (by decide),
   ((queryExecute_backoff_schedule exampleEnv unreachableNet retryData .create_mutation
      .mutation_variables _ _ 3 10 [] rfl rfl rfl (by decide) rfl rfl rfl).2.1
      (fun _ _ => rfl)).2.2.2 (by decide) (by decide),
   (queryExecute_backoff_schedule exampleEnv flakyNet retryData .create_mutation
      .mutation_variables _ _ 3 10 [] rfl rfl rfl (by decide) rfl rfl rfl).2.2.2
      rfl rfl rfl rfl rfl rfl⟩

/-! ## Map loops -/

/-- The loop `for k, v := range overrides { target[k] = v }` is a last-write-wins merge: a
key of `overrides` gets the overriding value, any other key keeps what `target` had. -/
theorem assignAll_lookup {V : Type} :
    ∀ (l : List (Sigma fun _ : String => V)) (target : GoMap V), l.NodupKeys →
      ∀ k, (assignAll l target).lookup k = (l.dlookup k).or (target.lookup k)
  | [], target, _, k => by simp [assignAll]
  | ⟨k0, v0⟩ :: rest, target, hl, k => by
    rw [List.nodupKeys_cons] at hl
    have ih := assignAll_lookup rest (target.insert k0 v0) hl.2 k
    unfold assignAll at ih ⊢
    rw [List.foldl_cons, ih]
    by_cases hk : k = k0
    · subst hk
      rw [List.dlookup_cons_eq, List.dlookup_eq_none.mpr hl.1, AList.lookup_insert]
      simp
    · rw [List.dlookup_cons_ne rest ⟨k0, v0⟩ hk, AList.lookup_insert_ne hk]

/-- The merge of one Go map into another, through `lookup`. -/
theorem assignAll_entries_lookup {V : Type} (overrides target : GoMap V) (k : String) :
    (assignAll overrides.entries target).lookup k
      = (overrides.lookup k).or (target.lookup k) :=
  assignAll_lookup overrides.entries target overrides.nodupKeys k

theorem dlookup_map_str (k : String) :
    ∀ l : List (Sigma fun _ : String => String),
      List.dlookup k (l.map (fun e => (⟨e.1, GoValue.str e.2⟩ : Sigma fun _ : String => GoValue)))
        = (List.dlookup k l).map GoValue.str
  | [] => rfl
  | ⟨k0, v0⟩ :: rest => by
    by_cases hk : k = k0
    · subst hk
      simp [List.dlookup_cons_eq]
    · rw [List.map_cons, List.dlookup_cons_ne _ _ hk, List.dlookup_cons_ne _ _ hk,
        dlookup_map_str k rest]

theorem asValues_lookup (m : GoMap String) (k : String) :
    (asValues m).lookup k = (m.lookup k).map GoValue.str :=
  dlookup_map_str k m.entries

/-- The copy loops of `computeMutationVariables`, when no `json.Marshal` fails: a key of
`source` gets the string of its value, any other key keeps what `target` had. -/
theorem copyAsStrings_lookup (env : Env) :
    ∀ (l : List (Sigma fun _ : String => GoValue)) (target out : GoMap String),
      l.NodupKeys → copyAsStrings env l target = .ok out →
      ∀ k, out.lookup k
        = ((l.dlookup k).bind (fun v => (stringOf env v).toOption)).or (target.lookup k)
  | [], target, out, _, h, k => by
    simp only [copyAsStrings, Except.ok.injEq] at h
    subst h
    simp
  | ⟨k0, v0⟩ :: rest, target, out, hl, h, k => by
    rw [List.nodupKeys_cons] at hl
    rw [copyAsStrings] at h
    cases hs : stringOf env v0 with
    | error err => rw [hs] at h; cases h
    | ok s =>
      rw [hs] at h
      have ih := copyAsStrings_lookup env rest (target.insert k0 s) out hl.2 h k
      rw [ih]
      by_cases hk : k = k0
      · subst hk
        rw [List.dlookup_cons_eq, List.dlookup_eq_none.mpr hl.1, AList.lookup_insert]
        simp [hs, Except.toOption]
      · rw [List.dlookup_cons_ne rest ⟨k0, v0⟩ hk, AList.lookup_insert_ne hk]

/-- On string values the loop "Populate GqlQuery variables" does not panic, and it gives
every key of the input its outgoing value. -/
theorem populateVariables_lookup (env : Env) :
    ∀ (l : List (Sigma fun _ : String => GoValue)) (vars : GoMap GoValue),
      l.NodupKeys → (∀ e ∈ l, ∃ s, e.2 = GoValue.str s) →
      ∃ out, populateVariables env l vars = .ret out
        ∧ ∀ k, out.lookup k = ((l.dlookup k).map (outgoingValue env)).or (vars.lookup k)
  | [], vars, _, _ => ⟨vars, rfl, fun k => by simp⟩
  | ⟨k0, v0⟩ :: rest, vars, hl, hstr => by
    rw [List.nodupKeys_cons] at hl
    obtain ⟨s, hs⟩ := hstr ⟨k0, v0⟩ (List.mem_cons_self _ _)
    simp only at hs
    subst hs
    have hrest : ∀ e ∈ rest, ∃ s, e.2 = GoValue.str s :=
      fun e he => hstr e (List.mem_cons_of_mem _ he)
    cases hu : env.jsonUnmarshal s with
    | none =>
      obtain ⟨out, hout, hlook⟩ :=
        populateVariables_lookup env rest (vars.insert k0 (.str s)) hl.2 hrest
      refine ⟨out, ?_, ?_⟩
      · rw [populateVariables]
        simp only [isJSON, hu]
        simpa using hout
      · intro k
        rw [hlook k]
        by_cases hk : k = k0
        · subst hk
          rw [List.dlookup_cons_eq, List.dlookup_eq_none.mpr hl.1, AList.lookup_insert]
          simp [outgoingValue, hu]
        · rw [List.dlookup_cons_ne rest ⟨k0, GoValue.str s⟩ hk, AList.lookup_insert_ne hk]
    | some js =>
      obtain ⟨out, hout, hlook⟩ :=
        populateVariables_lookup env rest (vars.insert k0 js) hl.2 hrest
      refine ⟨out, ?_, ?_⟩
      · rw [populateVariables]
        simp only [isJSON, hu]
        simpa using hout
      · intro k
        rw [hlook k]
        by_cases hk : k = k0
        · subst hk
          rw [List.dlookup_cons_eq, List.dlookup_eq_none.mpr hl.1, AList.lookup_insert]
          simp [outgoingValue, hu]
        · rw [List.dlookup_cons_ne rest ⟨k0, GoValue.str s⟩ hk, AList.lookup_insert_ne hk]

theorem buildQueryObj_variables (env : Env) (query : String) (inputVariables : GoMap GoValue)
    (hstr : ∀ k v, inputVariables.lookup k = some v → ∃ s, v = GoValue.str s) :
    ∃ q, buildQueryObj env query inputVariables = .ret q ∧ q.Query = query
      ∧ ∀ k, q.Variables.lookup k = (inputVariables.lookup k).map (outgoingValue env) := by
  obtain ⟨out, hout, hlook⟩ :=
    populateVariables_lookup env inputVariables.entries ∅ inputVariables.nodupKeys
      (fun e he => hstr e.1 e.2 (AList.mem_lookup_iff.mpr he))
  refine ⟨⟨query, out⟩, ?_, rfl, ?_⟩
  · unfold buildQueryObj
    rw [hout]
  · intro k
    rw [hlook k]
    simp [AList.lookup]

/-- The request object of a run of `queryExecute` is the one `buildQueryObj` returns. -/
theorem queryExecute_queryObj (env : Env) (net : Nat → DoResult) (d : QueryData)
    (qs : QuerySource) (vs : VariableSource) (q : GqlQuery)
    (hq : buildQueryObj env (d.getQuery qs) (d.getVariables vs) = .ret q) :
    (queryExecute env net d qs vs).queryObj = some q := by
  unfold queryExecute
  simp only [hq]
  repeat' split
  all_goals rfl

/-- The variable map a run of `queryExecute` reads is the one stored under
`variableSource`. -/
theorem queryExecute_inputVariables (env : Env) (net : Nat → DoResult) (d : QueryData)
    (qs : QuerySource) (vs : VariableSource) :
    (queryExecute env net d qs vs).inputVariables = d.getVariables vs := by
  unfold queryExecute
  simp only []
  repeat' split
  all_goals rfl

theorem singleton_lookup_self {V : Type} (k0 : String) (v : V) :
    (AList.singleton k0 v : GoMap V).lookup k0 = some v :=
  List.dlookup_cons_eq _ _ _

theorem singleton_lookup_str (k0 s k : String) (v : GoValue)
    (h : (AList.singleton k0 (GoValue.str s) : GoMap GoValue).lookup k = some v) :
    ∃ t, v = GoValue.str t := by
  by_cases hk : k = k0
  · subst hk
    rw [singleton_lookup_self] at h
    exact ⟨s, (Option.some.inj h).symm⟩
  · have hnone : (AList.singleton k0 (GoValue.str s) : GoMap GoValue).lookup k = none := by
      rw [AList.lookup_eq_none, AList.mem_keys, AList.keys_singleton]
      simpa using hk
    rw [hnone] at h
    cases h

/-- C5: for a string-valued input variable map, the outgoing `variables` of the request
object `queryExecute` builds has the keys of the input and no other; the value of a key is
the decoded JSON value when the input string parses as JSON, the input string otherwise.
With the input `x = {"a":1}` the value of `x` is what that text decodes to, with
`x = hello` (not JSON) it is the string `hello`. -/
theorem queryExecute_outgoing_variables (env : Env) (net : Nat → DoResult) (d : QueryData)
    (qs : QuerySource) (vs : VariableSource)
    (hstr : ∀ k v, (d.getVariables vs).lookup k = some v → ∃ s, v = GoValue.str s) :
    ∃ q, (queryExecute env net d qs vs).queryObj = some q
      ∧ q.Query = d.getQuery qs
      ∧ (∀ k, k ∈ q.Variables ↔ k ∈ d.getVariables vs)
      ∧ (∀ k s js, (d.getVariables vs).lookup k = some (.str s) →
          env.jsonUnmarshal s = some js → q.Variables.lookup k = some js)
      ∧ (∀ k s, (d.getVariables vs).lookup k = some (.str s) →
          env.jsonUnmarshal s = none → q.Variables.lookup k = some (.str s))
      ∧ (∀ js, d.getVariables vs = AList.singleton "x" (.str "\x7b\"a\":1\x7d") →
          env.jsonUnmarshal "\x7b\"a\":1\x7d" = some js → q.Variables.lookup "x" = some js)
      ∧ (d.getVariables vs = AList.singleton "x" (.str "hello") →
          env.jsonUnmarshal "hello" = none →
          q.Variables.lookup "x" = some (.str "hello")) := by
  obtain ⟨q, hq, hquery, hlook⟩ :=
    buildQueryObj_variables env (d.getQuery qs) (d.getVariables vs) hstr
  have hjs : ∀ k s js, (d.getVariables vs).lookup k = some (.str s) →
      env.jsonUnmarshal s = some js → q.Variables.lookup k = some js := by
    intro k s js hk hu
    rw [hlook k, hk]
    simp [outgoingValue, hu]
  have hraw : ∀ k s, (d.getVariables vs).lookup k = some (.str s) →
      env.jsonUnmarshal s = none → q.Variables.lookup k = some (.str s) := by
    intro k s hk hu
    rw [hlook k, hk]
    simp [outgoingValue, hu]
  refine ⟨q, queryExecute_queryObj env net d qs vs q hq, hquery, ?_, hjs, hraw, ?_, ?_⟩
  · intro k
    rw [← AList.lookup_isSome, ← AList.lookup_isSome, hlook k]
    cases (d.getVariables vs).lookup k <;> rfl
  · intro js hmap hu
    exact hjs "x" _ js (by rw [hmap, singleton_lookup_self]) hu
  · intro hmap hu
    exact hraw "x" _ (by rw [hmap, singleton_lookup_self]) hu

/-- C5 at concrete inputs: the variable `x` holding `{"a":1}`, and holding `hello`. -/
theorem queryExecute_outgoing_variables_witness :
    (∃ q, (queryExecute exampleEnv healthyNet
          { retryData with
            mutation_variables := AList.singleton "x" (.str "\x7b\"a\":1\x7d") }
          .create_mutation .mutation_variables).queryObj = some q
        ∧ q.Variables.lookup "x" = some (.object [("a", .float64 0x3FF0000000000000)]))
    ∧ (∃ q, (queryExecute exampleEnv healthyNet
          { retryData with mutation_variables := AList.singleton "x" (.str "hello") }
          .create_mutation .mutation_variables).queryObj = some q
        ∧ q.Variables.lookup "x" = some (.str "hello")) := by
  constructor
  · obtain ⟨q, hq, -, -, -, -, hjs, -⟩ :=
      queryExecute_outgoing_variables exampleEnv healthyNet
        { retryData with
          mutation_variables := AList.singleton "x" (.str "\x7b\"a\":1\x7d") }
        .create_mutation .mutation_variables (singleton_lookup_str _ _)
    exact ⟨q, hq, hjs _ rfl rfl⟩
  · obtain ⟨q, hq, -, -, -, -, -, hraw⟩ :=
      queryExecute_outgoing_variables exampleEnv healthyNet
        { retryData with mutation_variables := AList.singleton "x" (.str "hello") }
        .create_mutation .mutation_variables (singleton_lookup_str _ _)
    exact ⟨q, hq, hraw rfl rfl⟩

/-! ## Claims about the resource handlers -/

theorem hasError_processErrors (r : GqlQueryResponse) :
    HasError (ProcessErrors r) = true ↔ r.errors ≠ [] := by
  unfold HasError ProcessErrors
  cases r.errors <;> simp

/-- The function `computeMutationVariables` writes the three computed variable maps and
nothing else. -/
theorem computeMutationVariables_frame (env : Env) (bytes : Bytes) (d : ResourceData) :
    (computeMutationVariables env bytes d).2
      = { d with
          computed_read_operation_variables :=
            (computeMutationVariables env bytes d).2.computed_read_operation_variables,
          computed_update_operation_variables :=
            (computeMutationVariables env bytes d).2.computed_update_operation_variables,
          computed_delete_operation_variables :=
            (computeMutationVariables env bytes d).2.computed_delete_operation_variables } := by
  unfold computeMutationVariables
  simp only []
  repeat' split
  all_goals rfl

theorem computeMutationVariables_existing_hash (env : Env) (bytes : Bytes)
    (d : ResourceData) :
    (computeMutationVariables env bytes d).2.existing_hash = d.existing_hash := by
  rw [computeMutationVariables_frame]

theorem computeMutationVariables_id (env : Env) (bytes : Bytes) (d : ResourceData) :
    (computeMutationVariables env bytes d).2.id = d.id := by
  rw [computeMutationVariables_frame]

/-- The function `resourceGraphqlRead` never writes `existing_hash`. -/
theorem resourceGraphqlRead_existing_hash (env : Env) (net : Nat → DoResult)
    (d : ResourceData) :
    (resourceGraphqlRead env net d).d.existing_hash = d.existing_hash := by
  unfold resourceGraphqlRead
  simp only []
  split
  · rfl
  · rfl
  · split
    · rfl
    · split
      · split
        · rename_i h
          have := computeMutationVariables_existing_hash env ‹Bytes›
            { d with
              computed_read_operation_variables :=
                assignAll d.read_query_variables.entries d.computed_read_operation_variables,
              query_response := ‹Bytes› }
          rw [h] at this
          exact this
        · rename_i h
          have := computeMutationVariables_existing_hash env ‹Bytes›
            { d with
              computed_read_operation_variables :=
                assignAll d.read_query_variables.entries d.computed_read_operation_variables,
              query_response := ‹Bytes› }
          rw [h] at this
          exact this
      · rfl

/-- On the data of the mutation resource `queryExecute` sends no request and returns no
response: it panics in `isJSON`, or returns the error of the encoder (line 50), or panics
at line 53 on the nil that `d.Get("max_retries")` returns. -/
theorem queryExecute_undeclared_keys (env : Env) (net : Nat → DoResult) (d : ResourceData)
    (qs : QuerySource) (vs : VariableSource) :
    (queryExecute env net d.queryData qs vs).events = []
    ∧ ∀ resp bytes,
        (queryExecute env net d.queryData qs vs).result ≠ .ret (.ok (resp, bytes)) := by
  unfold queryExecute
  simp only [ResourceData.queryData]
  split
  · exact ⟨rfl, fun _ _ h => by cases h⟩
  · split
    · exact ⟨rfl, fun _ _ h => by cases h⟩
    · exact ⟨rfl, fun _ _ h => by cases h⟩

/-- On the data of the mutation resource, once the request is built and encoded,
`queryExecute` panics at line 53. -/
theorem queryExecute_undeclared_panics (env : Env) (net : Nat → DoResult) (d : ResourceData)
    (qs : QuerySource) (vs : VariableSource) (q : GqlQuery) (body : Bytes)
    (hq : buildQueryObj env (d.queryData.getQuery qs) (d.queryData.getVariables vs) = .ret q)
    (henc : env.jsonEncode q = .ok body) :
    (queryExecute env net d.queryData qs vs).result
      = .panic "interface conversion: interface {} is nil, not int" := by
  unfold queryExecute
  simp only [hq, henc]
  rfl

/-- No call of `resourceGraphqlMutationCreateUpdate` gets past its mutation: no request is
sent, and `existing_hash`, the ID and `query_response` are never written. -/
theorem createUpdate_stops_at_mutation (env : Env) (net : Nat → Nat → DoResult)
    (d : ResourceData) :
    (resourceGraphqlMutationCreateUpdate env net d).d.existing_hash = d.existing_hash
    ∧ (resourceGraphqlMutationCreateUpdate env net d).d.id = d.id
    ∧ (resourceGraphqlMutationCreateUpdate env net d).d.query_response = d.query_response
    ∧ (resourceGraphqlMutationCreateUpdate env net d).queries.map (fun q => q.events)
        = [[]] := by
  unfold resourceGraphqlMutationCreateUpdate
  by_cases hd : d.existing_hash = ""
  · simp only [hd, if_true]
    have hev := (queryExecute_undeclared_keys env (net 0) d .create_mutation
      .mutation_variables).1
    split
    · exact ⟨hd, rfl, rfl, by simp [hev]⟩
    · exact ⟨hd, rfl, rfl, by simp [hev]⟩
    · rename_i heq
      exact absurd heq ((queryExecute_undeclared_keys env (net 0) d .create_mutation
        .mutation_variables).2 _ _)
  · simp only [hd, if_false]
    have hev := (queryExecute_undeclared_keys env (net 0)
      { d with computed_update_operation_variables :=
          (assignAll d.mutation_variables.entries d.computed_update_operation_variables) }
      .update_mutation .computed_update_operation_variables).1
    split
    · exact ⟨rfl, rfl, rfl, by simp [hev]⟩
    · exact ⟨rfl, rfl, rfl, by simp [hev]⟩
    · rename_i heq
      exact absurd heq ((queryExecute_undeclared_keys env (net 0)
        { d with computed_update_operation_variables :=
            (assignAll d.mutation_variables.entries d.computed_update_operation_variables) }
        .update_mutation .computed_update_operation_variables).2 _ _)

/-- C6 (the code at the failing input): the create of the end-to-end scenario, with
`mutation_variables` `name = foo`, `existing_hash` empty and a server that answers 200 with
`{"data":{"id":"42"}}`.  The call panics at `query_executor.go:53`, where
`d.Get("max_retries")` is nil because the schema of the resource does not declare the key;
no request has been sent, and `existing_hash` is still empty and the ID not set. -/
theorem create_panics_before_request :
    (resourceGraphqlMutationCreateUpdate exampleEnv (fun _ => healthyNet) widgetData).diags
        = .panic "interface conversion: interface {} is nil, not int"
    ∧ (resourceGraphqlMutationCreateUpdate exampleEnv (fun _ => healthyNet)
        widgetData).queries.map (fun q => q.events) = [[]]
    ∧ (resourceGraphqlMutationCreateUpdate exampleEnv (fun _ => healthyNet)
        widgetData).d.existing_hash = ""
    ∧ (resourceGraphqlMutationCreateUpdate exampleEnv (fun _ => healthyNet)
        widgetData).d.id = ""
    ∧ (resourceGraphqlMutationCreateUpdate exampleEnv (fun _ => healthyNet)
        widgetData).d = widgetData :=
  ⟨rfl, rfl, rfl, rfl, rfl⟩

/-- When the response parses, the keys are computed and no `json.Marshal` fails, the
function `computeMutationVariables` returns nil and leaves the three merged maps. -/
theorem computeMutationVariables_ok (env : Env) (bytes : Bytes) (d : ResourceData)
    (robj : GoMap GoValue) (mvks rvks0 dvks0 mvks1 : GoMap String)
    (h1 : env.unmarshalObject bytes = .ok robj)
    (h2 : env.computeMutationVariableKeys d.compute_mutation_keys robj = .ok mvks)
    (h3 : copyAsStrings env d.read_query_variables.entries ∅ = .ok rvks0)
    (h4 : copyAsStrings env d.delete_mutation_variables.entries ∅ = .ok dvks0)
    (h5 : copyAsStrings env d.mutation_variables.entries mvks = .ok mvks1) :
    computeMutationVariables env bytes d
      = (none, { d with
          computed_read_operation_variables := asValues (assignAll mvks.entries rvks0),
          computed_delete_operation_variables := asValues (assignAll mvks.entries dvks0),
          computed_update_operation_variables := asValues mvks1 }) := by
  unfold computeMutationVariables
  simp only [h1, h2, h3, h4, h5]

/-- When the response parses, the keys are computed and the read and delete variables are
turned into strings, the read and delete maps are stored, whatever happens afterwards. -/
theorem computeMutationVariables_read_delete (env : Env) (bytes : Bytes) (d : ResourceData)
    (robj : GoMap GoValue) (mvks rvks0 dvks0 : GoMap String)
    (h1 : env.unmarshalObject bytes = .ok robj)
    (h2 : env.computeMutationVariableKeys d.compute_mutation_keys robj = .ok mvks)
    (h3 : copyAsStrings env d.read_query_variables.entries ∅ = .ok rvks0)
    (h4 : copyAsStrings env d.delete_mutation_variables.entries ∅ = .ok dvks0) :
    (computeMutationVariables env bytes d).2.computed_read_operation_variables
        = asValues (assignAll mvks.entries rvks0)
    ∧ (computeMutationVariables env bytes d).2.computed_delete_operation_variables
        = asValues (assignAll mvks.entries dvks0) := by
  unfold computeMutationVariables
  simp only [h1, h2, h3, h4]
  split <;> exact ⟨rfl, rfl⟩

/-- The copy loop succeeds when every value can be turned into a string. -/
theorem copyAsStrings_total (env : Env) :
    ∀ (l : List (Sigma fun _ : String => GoValue)) (target : GoMap String),
      (∀ e ∈ l, ∃ s, stringOf env e.2 = .ok s) →
      ∃ out, copyAsStrings env l target = .ok out
  | [], target, _ => ⟨target, rfl⟩
  | ⟨k0, v0⟩ :: rest, target, h => by
    obtain ⟨s, hs⟩ := h ⟨k0, v0⟩ (List.mem_cons_self _ _)
    obtain ⟨out, hout⟩ := copyAsStrings_total env rest (target.insert k0 s)
      (fun e he => h e (List.mem_cons_of_mem _ he))
    refine ⟨out, ?_⟩
    rw [copyAsStrings]
    simp only at hs
    rw [hs]
    exact hout

/-! ## Merges of variable maps -/

/-- C7: the computed update variables are a last-write-wins merge in which
`mutation_variables` are the overrides.  In the update branch of
`resourceGraphqlMutationCreateUpdate` the map stored under
`computed_update_operation_variables` and read for the update mutation has, for every
key, the `mutation_variables` value when there is one and the previously stored value
otherwise (so no other key).  In `computeMutationVariables`, when the keys are extracted
and the call returns nil, the stored map has the `mutation_variables` value (a string as it
is, any other value as its JSON text) for every key of `mutation_variables` and the
extracted value for every other key.  The merge of `a = 1, b = 2` with `b = 3` is
`a = 1, b = 3`. -/
theorem computed_update_variables_merge (env : Env) (net : Nat → Nat → DoResult)
    (d : ResourceData) (bytes : Bytes) :
    (d.existing_hash ≠ "" →
      ∃ merged : GoMap GoValue,
        (∀ k, merged.lookup k
          = (d.mutation_variables.lookup k).or
              (d.computed_update_operation_variables.lookup k))
        ∧ (resourceGraphqlMutationCreateUpdate env net d).queries.head?
            = some (queryExecute env (net 0)
                ({ d with computed_update_operation_variables := merged } :
                  ResourceData).queryData
                .update_mutation .computed_update_operation_variables)
        ∧ (queryExecute env (net 0)
                ({ d with computed_update_operation_variables := merged } :
                  ResourceData).queryData
                .update_mutation .computed_update_operation_variables).inputVariables
            = merged)
    ∧ (∀ (robj : GoMap GoValue) (mvks : GoMap String) (d1 : ResourceData),
        env.unmarshalObject bytes = .ok robj →
        env.computeMutationVariableKeys d.compute_mutation_keys robj = .ok mvks →
        computeMutationVariables env bytes d = (none, d1) →
        (∀ k, d1.computed_update_operation_variables.lookup k
          = (((d.mutation_variables.lookup k).bind
                (fun v => (stringOf env v).toOption)).or (mvks.lookup k)).map GoValue.str)
        ∧ (∀ k s, d.mutation_variables.lookup k = some (.str s) →
            d1.computed_update_operation_variables.lookup k = some (.str s))
        ∧ (∀ k, d.mutation_variables.lookup k = none →
            d1.computed_update_operation_variables.lookup k
              = (mvks.lookup k).map GoValue.str))
    ∧ (∀ k, (assignAll (AList.singleton "b" "3" : GoMap String).entries
              ((AList.singleton "a" "1" : GoMap String).insert "b" "2")).lookup k
          = if k = "a" then some "1" else if k = "b" then some "3" else none) := by
  refine ⟨?_, ?_, ?_⟩
  · intro hd
    refine ⟨assignAll d.mutation_variables.entries d.computed_update_operation_variables,
      fun k => assignAll_entries_lookup _ _ k, ?_, queryExecute_inputVariables _ _ _ _ _⟩
    unfold resourceGraphqlMutationCreateUpdate
    simp only [hd, if_false]
    split
    · rfl
    · rfl
    · split <;> rfl
  · intro robj mvks d1 h1 h2 hret
    have hmain : ∀ k, d1.computed_update_operation_variables.lookup k
          = (((d.mutation_variables.lookup k).bind
                (fun v => (stringOf env v).toOption)).or (mvks.lookup k)).map GoValue.str := by
      intro k
      unfold computeMutationVariables at hret
      simp only [h1, h2] at hret
      cases h3 : copyAsStrings env d.read_query_variables.entries ∅ with
      | error err => rw [h3] at hret; simp at hret
      | ok rvks0 =>
        rw [h3] at hret
        simp only at hret
        cases h4 : copyAsStrings env d.delete_mutation_variables.entries ∅ with
        | error err => rw [h4] at hret; simp at hret
        | ok dvks0 =>
          rw [h4] at hret
          simp only at hret
          cases h5 : copyAsStrings env d.mutation_variables.entries mvks with
          | error err => rw [h5] at hret; simp at hret
          | ok mvks1 =>
            rw [h5] at hret
            simp only [Prod.mk.injEq, true_and] at hret
            rw [← hret]
            simp only [asValues_lookup]
            rw [copyAsStrings_lookup env _ _ _ d.mutation_variables.nodupKeys h5 k]
            rfl
    refine ⟨hmain, ?_, ?_⟩
    · intro k s hk
      rw [hmain k, hk]
      simp [stringOf, Except.toOption]
    · intro k hk
      rw [hmain k, hk]
      simp
  · intro k
    rw [assignAll_entries_lookup]
    by_cases hb : k = "b"
    · subst hb
      rfl
    · by_cases ha : k = "a"
      · subst ha
        rfl
      · have e1 : (AList.singleton "b" "3" : GoMap String).lookup k = none := by
          rw [AList.lookup_eq_none, AList.mem_keys, AList.keys_singleton]
          simpa using hb
        have e2 : ((AList.singleton "a" "1" : GoMap String).insert "b" "2").lookup k
            = none := by
          rw [AList.lookup_insert_ne hb, AList.lookup_eq_none, AList.mem_keys,
            AList.keys_singleton]
          simpa using ha
        rw [e1, e2, if_neg ha, if_neg hb]
        rfl

/-- C7 at concrete inputs: the update of a resource with stored `a = 1, b = 2` and configured
`b = 3`, and the extraction of `widgetId` next to the configured `name`. -/
theorem computed_update_variables_merge_witness :
    (∃ merged : GoMap GoValue,
        merged.lookup "a" = some (.str "1") ∧ merged.lookup "b" = some (.str "3")
        ∧ (resourceGraphqlMutationCreateUpdate exampleEnv (fun _ => healthyNet)
            existingData).queries.head?
          = some (queryExecute exampleEnv healthyNet
              ({ existingData with computed_update_operation_variables := merged } :
                ResourceData).queryData
              .update_mutation .computed_update_operation_variables))
    ∧ (computeMutationVariables exampleEnv widgetBody
          widgetData).2.computed_update_operation_variables.lookup "name"
        = some (.str "foo")
    ∧ (computeMutationVariables exampleEnv widgetBody
          widgetData).2.computed_update_operation_variables.lookup "widgetId"
        = some (.str "42") := by
  refine ⟨?_, ?_, ?_⟩
  · obtain ⟨merged, hlook, hq, -⟩ :=
      (computed_update_variables_merge exampleEnv (fun _ => healthyNet) existingData []).1
        (by decide)
    exact ⟨merged, by rw [hlook]; rfl, by rw [hlook]; rfl, hq⟩
  · exact ((computed_update_variables_merge exampleEnv (fun _ => healthyNet) widgetData
      widgetBody).2.1 _ _ _ rfl rfl rfl).2.1 "name" "foo" rfl
  · exact (((computed_update_variables_merge exampleEnv (fun _ => healthyNet) widgetData
      widgetBody).2.1 _ _ _ rfl rfl rfl).2.2 "widgetId" rfl).trans rfl

/-- C8, the claim as stated fails: `id` is configured as `static` and previously computed
as `extracted`; the read query is given `id = static`, and that is the value stored
back, not the previously computed one. -/
theorem read_query_sends_static_value :
    conflictData.read_query_variables.lookup "id" = some (.str "static")
    ∧ conflictData.computed_read_operation_variables.lookup "id" = some (.str "extracted")
    ∧ (resourceGraphqlRead exampleEnv healthyNet conflictData).queries.map
        (fun q => q.inputVariables.lookup "id") = [some (.str "static")]
    ∧ (resourceGraphqlRead exampleEnv healthyNet
        conflictData).d.computed_read_operation_variables.lookup "id" = some (.str "static")
    ∧ ¬ ((resourceGraphqlRead exampleEnv healthyNet conflictData).queries.map
        (fun q => q.inputVariables.lookup "id")
          = [conflictData.computed_read_operation_variables.lookup "id"]) := by
  refine ⟨rfl, rfl, rfl, rfl, ?_⟩
  intro h
  have h1 : some (GoValue.str "static") = some (GoValue.str "extracted") :=
    List.head_eq_of_cons_eq h
  simp at h1

/-- C8 as amended: in `resourceGraphqlRead` the variable map stored under
`computed_read_operation_variables` and read for the read query is the previously computed
map overridden by the static `read_query_variables`: a variable of `read_query_variables`
has its static value, any other variable keeps its previously computed value. -/
theorem read_query_variables_merge (env : Env) (net : Nat → DoResult) (d : ResourceData) :
    ∃ merged : GoMap GoValue,
      (∀ k, merged.lookup k
        = (d.read_query_variables.lookup k).or
            (d.computed_read_operation_variables.lookup k))
      ∧ (∀ k v, d.read_query_variables.lookup k = some v → merged.lookup k = some v)
      ∧ (∀ k, d.read_query_variables.lookup k = none →
          merged.lookup k = d.computed_read_operation_variables.lookup k)
      ∧ (resourceGraphqlRead env net d).queries
          = [queryExecute env net
              ({ d with computed_read_operation_variables := merged } :
                ResourceData).queryData
              .read_query .computed_read_operation_variables]
      ∧ (queryExecute env net
              ({ d with computed_read_operation_variables := merged } :
                ResourceData).queryData
              .read_query .computed_read_operation_variables).inputVariables = merged := by
  have hlook := fun k => assignAll_entries_lookup d.read_query_variables
    d.computed_read_operation_variables k
  refine ⟨assignAll d.read_query_variables.entries d.computed_read_operation_variables,
    hlook, ?_, ?_, ?_, queryExecute_inputVariables _ _ _ _ _⟩
  · intro k v hk
    rw [hlook k, hk]
    rfl
  · intro k hk
    rw [hlook k, hk]
    rfl
  · unfold resourceGraphqlRead
    simp only []
    split
    · rfl
    · rfl
    · split
      · rfl
      · split
        · split <;> rfl
        · rfl

/-- C8 as amended, at the resource with `id` both configured and computed. -/
theorem read_query_variables_merge_witness :
    ∃ merged : GoMap GoValue,
      merged.lookup "id" = some (.str "static")
      ∧ (resourceGraphqlRead exampleEnv healthyNet conflictData).queries
          = [queryExecute exampleEnv healthyNet
              ({ conflictData with computed_read_operation_variables := merged } :
                ResourceData).queryData
              .read_query .computed_read_operation_variables] := by
  obtain ⟨merged, -, hstatic, -, hq, -⟩ :=
    read_query_variables_merge exampleEnv healthyNet conflictData
  exact ⟨merged, hstatic "id" _ rfl, hq⟩

/-- C9: when `computeMutationVariables` parses the response and extracts a key map `mvks`,
and the static read and delete variables can be turned into strings, the stored
`computed_read_operation_variables` is `read_query_variables` (strings as they are, other
values as JSON text) overridden by `mvks`, and the stored
`computed_delete_operation_variables` is `delete_mutation_variables` overridden by `mvks`:
an extracted variable has its extracted value, a static variable that is not extracted
keeps its static value, and there is no other variable. -/
theorem computed_read_delete_variables (env : Env) (bytes : Bytes) (d : ResourceData)
    (robj : GoMap GoValue) (mvks : GoMap String)
    (h1 : env.unmarshalObject bytes = .ok robj)
    (h2 : env.computeMutationVariableKeys d.compute_mutation_keys robj = .ok mvks)
    (hread : ∀ k v, d.read_query_variables.lookup k = some v → ∃ s, stringOf env v = .ok s)
    (hdelete : ∀ k v, d.delete_mutation_variables.lookup k = some v →
      ∃ s, stringOf env v = .ok s) :
    (∀ k, (computeMutationVariables env bytes d).2.computed_read_operation_variables.lookup k
        = ((mvks.lookup k).or ((d.read_query_variables.lookup k).bind
            (fun v => (stringOf env v).toOption))).map GoValue.str)
    ∧ (∀ k,
        (computeMutationVariables env bytes d).2.computed_delete_operation_variables.lookup k
        = ((mvks.lookup k).or ((d.delete_mutation_variables.lookup k).bind
            (fun v => (stringOf env v).toOption))).map GoValue.str)
    ∧ (∀ k s, mvks.lookup k = some s →
        (computeMutationVariables env bytes d).2.computed_read_operation_variables.lookup k
          = some (.str s)
        ∧ (computeMutationVariables env bytes
            d).2.computed_delete_operation_variables.lookup k = some (.str s))
    ∧ (∀ k s, mvks.lookup k = none → d.read_query_variables.lookup k = some (.str s) →
        (computeMutationVariables env bytes d).2.computed_read_operation_variables.lookup k
          = some (.str s))
    ∧ (∀ k s, mvks.lookup k = none → d.delete_mutation_variables.lookup k = some (.str s) →
        (computeMutationVariables env bytes
            d).2.computed_delete_operation_variables.lookup k = some (.str s)) := by
  obtain ⟨rvks0, h3⟩ := copyAsStrings_total env d.read_query_variables.entries ∅
    (fun e he => hread e.1 e.2 (AList.mem_lookup_iff.mpr he))
  obtain ⟨dvks0, h4⟩ := copyAsStrings_total env d.delete_mutation_variables.entries ∅
    (fun e he => hdelete e.1 e.2 (AList.mem_lookup_iff.mpr he))
  obtain ⟨hr, hdl⟩ := computeMutationVariables_read_delete env bytes d robj mvks rvks0 dvks0
    h1 h2 h3 h4
  have hreadEq : ∀ k,
      (computeMutationVariables env bytes d).2.computed_read_operation_variables.lookup k
        = ((mvks.lookup k).or ((d.read_query_variables.lookup k).bind
            (fun v => (stringOf env v).toOption))).map GoValue.str := by
    intro k
    rw [hr, asValues_lookup, assignAll_entries_lookup,
      copyAsStrings_lookup env _ _ _ d.read_query_variables.nodupKeys h3 k]
    simp [AList.lookup, Option.or_none]
  have hdeleteEq : ∀ k,
      (computeMutationVariables env bytes d).2.computed_delete_operation_variables.lookup k
        = ((mvks.lookup k).or ((d.delete_mutation_variables.lookup k).bind
            (fun v => (stringOf env v).toOption))).map GoValue.str := by
    intro k
    rw [hdl, asValues_lookup, assignAll_entries_lookup,
      copyAsStrings_lookup env _ _ _ d.delete_mutation_variables.nodupKeys h4 k]
    simp [AList.lookup, Option.or_none]
  refine ⟨hreadEq, hdeleteEq, ?_, ?_, ?_⟩
  · intro k s hk
    rw [hreadEq k, hdeleteEq k, hk]
    exact ⟨rfl, rfl⟩
  · intro k s hk hs
    rw [hreadEq k, hk, hs]
    rfl
  · intro k s hk hs
    rw [hdeleteEq k, hk, hs]
    rfl

theorem insert_lookup_str (m : GoMap GoValue) (k0 s0 : String)
    (hm : ∀ k v, m.lookup k = some v → ∃ s, v = GoValue.str s) :
    ∀ k v, (m.insert k0 (.str s0)).lookup k = some v → ∃ s, v = GoValue.str s := by
  intro k v h
  by_cases hk : k = k0
  · subst hk
    rw [AList.lookup_insert] at h
    exact ⟨s0, (Option.some.inj h).symm⟩
  · rw [AList.lookup_insert_ne hk] at h
    exact hm k v h

theorem stringOf_str (env : Env) (v : GoValue) (h : ∃ s, v = GoValue.str s) :
    ∃ s, stringOf env v = .ok s := by
  obtain ⟨s, rfl⟩ := h
  exact ⟨s, rfl⟩

/-- C9 at concrete inputs: `widgetId` is configured as `0` and extracted as `42`, `name` is
only configured. -/
theorem computed_read_delete_variables_witness :
    (computeMutationVariables exampleEnv widgetBody
        widgetData).2.computed_read_operation_variables.lookup "widgetId" = some (.str "42")
    ∧ (computeMutationVariables exampleEnv widgetBody
        widgetData).2.computed_delete_operation_variables.lookup "widgetId"
          = some (.str "42")
    ∧ (computeMutationVariables exampleEnv widgetBody
        widgetData).2.computed_read_operation_variables.lookup "name" = some (.str "foo")
    ∧ (computeMutationVariables exampleEnv widgetBody
        widgetData).2.computed_delete_operation_variables.lookup "name"
          = some (.str "foo") := by
  have hstr : ∀ k v,
      ((AList.singleton "widgetId" (GoValue.str "0") : GoMap GoValue).insert "name"
        (.str "foo")).lookup k = some v → ∃ s, stringOf exampleEnv v = .ok s :=
    fun k v h => stringOf_str exampleEnv v
      (insert_lookup_str _ "name" "foo" (singleton_lookup_str "widgetId" "0") k v h)
  have h := computed_read_delete_variables exampleEnv widgetBody widgetData
    (AList.singleton "data" (.object [("id", .str "42")])) (AList.singleton "widgetId" "42")
    rfl rfl hstr hstr
  exact ⟨(h.2.2.1 "widgetId" "42" rfl).1, (h.2.2.1 "widgetId" "42" rfl).2,
    h.2.2.2.1 "name" "foo" rfl rfl, h.2.2.2.2 "name" "foo" rfl rfl⟩

/-! ## Failures of `queryExecute` and the resource data -/

/-- C10, the claim as stated fails: the server cannot be reached, and the resource has the
configured read variable `id = 7` and nothing computed.  `resourceGraphqlRead` stores the
merged read variables (line 168) before it calls `queryExecute`, which does not return;
the call hands back no diagnostic, and `computed_read_operation_variables` has changed: it
now holds `id = 7`. -/
theorem read_failure_changes_computed_variables :
    (resourceGraphqlRead exampleEnv unreachableNet pendingData).diags
        = .panic "interface conversion: interface {} is nil, not int"
    ∧ (resourceGraphqlRead exampleEnv unreachableNet pendingData).queries.map
        (fun q => q.events) = [[]]
    ∧ pendingData.computed_read_operation_variables.lookup "id" = none
    ∧ (resourceGraphqlRead exampleEnv unreachableNet
        pendingData).d.computed_read_operation_variables.lookup "id" = some (.str "7")
    ∧ ¬ ((resourceGraphqlRead exampleEnv unreachableNet pendingData).d = pendingData) := by
  refine ⟨rfl, rfl, rfl, rfl, ?_⟩
  intro h
  have h1 := congrArg (fun d => (d.computed_read_operation_variables.lookup "id").isSome) h
  exact absurd h1 (by decide)

/-- C10 as amended: a call in which `queryExecute` does not return a response writes
nothing after it, and what was written before it stays.  `resourceGraphqlMutationDelete`,
and `resourceGraphqlMutationCreateUpdate` in the create branch, leave every field as it
was.  `resourceGraphqlRead` has by then stored the merged read variables, and the update
branch the merged update variables: that field holds the merge, every other field is as it
was. -/
theorem query_failure_leaves_written_state (env : Env) (net1 : Nat → DoResult)
    (net : Nat → Nat → DoResult) (d : ResourceData) :
    ((∀ resp bytes, (queryExecute env net1 d.queryData .delete_mutation
          .computed_delete_operation_variables).result ≠ .ret (.ok (resp, bytes))) →
        (resourceGraphqlMutationDelete env net1 d).d = d)
    ∧ ((∀ resp bytes, (queryExecute env net1
          ({ d with computed_read_operation_variables :=
              (assignAll d.read_query_variables.entries
                d.computed_read_operation_variables) } : ResourceData).queryData
          .read_query .computed_read_operation_variables).result
            ≠ .ret (.ok (resp, bytes))) →
        (resourceGraphqlRead env net1 d).d
          = { d with computed_read_operation_variables :=
              (assignAll d.read_query_variables.entries
                d.computed_read_operation_variables) })
    ∧ (d.existing_hash = "" →
        (∀ resp bytes, (queryExecute env (net 0) d.queryData .create_mutation
          .mutation_variables).result ≠ .ret (.ok (resp, bytes))) →
        (resourceGraphqlMutationCreateUpdate env net d).d = d)
    ∧ (d.existing_hash ≠ "" →
        (∀ resp bytes, (queryExecute env (net 0)
          ({ d with computed_update_operation_variables :=
              (assignAll d.mutation_variables.entries
                d.computed_update_operation_variables) } : ResourceData).queryData
          .update_mutation .computed_update_operation_variables).result
            ≠ .ret (.ok (resp, bytes))) →
        (resourceGraphqlMutationCreateUpdate env net d).d
          = { d with computed_update_operation_variables :=
              (assignAll d.mutation_variables.entries
                d.computed_update_operation_variables) }) := by
  refine ⟨?_, ?_, ?_, ?_⟩
  · intro hfail
    unfold resourceGraphqlMutationDelete
    simp only []
    split
    · rfl
    · rfl
    · rename_i heq
      exact absurd heq (hfail _ _)
  · intro hfail
    unfold resourceGraphqlRead
    simp only []
    split
    · rfl
    · rfl
    · rename_i heq
      exact absurd heq (hfail _ _)
  · intro hd hfail
    unfold resourceGraphqlMutationCreateUpdate
    simp only [hd, if_true]
    split
    · rfl
    · rfl
    · rename_i heq
      exact absurd heq (hfail _ _)
  · intro hd hfail
    unfold resourceGraphqlMutationCreateUpdate
    simp only [hd, if_false]
    split
    · rfl
    · rfl
    · rename_i heq
      exact absurd heq (hfail _ _)

/-- C10 as amended, at concrete inputs: a server that cannot be reached, for a delete, a
read and a create of the resource with the configured read variable `id = 7`, and for an
update of the resource with stored `a = 1, b = 2` and configured `b = 3`. -/
theorem query_failure_leaves_written_state_witness :
    (resourceGraphqlMutationDelete exampleEnv unreachableNet pendingData).d = pendingData
    ∧ (resourceGraphqlRead exampleEnv unreachableNet pendingData).d
        = { pendingData with computed_read_operation_variables :=
              (assignAll pendingData.read_query_variables.entries
                pendingData.computed_read_operation_variables) }
    ∧ (resourceGraphqlMutationCreateUpdate exampleEnv (fun _ => unreachableNet)
        pendingData).d = pendingData
    ∧ (resourceGraphqlMutationCreateUpdate exampleEnv (fun _ => unreachableNet)
        existingData).d
        = { existingData with computed_update_operation_variables :=
              (assignAll existingData.mutation_variables.entries
                existingData.computed_update_operation_variables) } :=
  ⟨(query_failure_leaves_written_state exampleEnv unreachableNet (fun _ => unreachableNet)
      pendingData).1 (queryExecute_undeclared_keys _ _ _ _ _).2,
   (query_failure_leaves_written_state exampleEnv unreachableNet (fun _ => unreachableNet)
      pendingData).2.1 (queryExecute_undeclared_keys _ _ _ _ _).2,
   (query_failure_leaves_written_state exampleEnv unreachableNet (fun _ => unreachableNet)
      pendingData).2.2.1 rfl (queryExecute_undeclared_keys _ _ _ _ _).2,
   (query_failure_leaves_written_state exampleEnv unreachableNet (fun _ => unreachableNet)
      existingData).2.2.2 (by decide) (queryExecute_undeclared_keys _ _ _ _ _).2⟩

end Graphql
